import Mathlib

/-!
# Virtual filter API (confura, `virtualfilter/api.go`)

A shallow embedding of `FilterApi`: the proxy-filter table, the node-client
cache and the operations of `api.go`, written as state-passing functions.

* The Go map `filters map[rpc.ID]*Filter` is an association list with unique
  keys (`AList`).
* Every invocation of a collaborator (node client, Filter System, connection
  construction) is appended to the ghost field `calls`; a collaborator's answer
  is a function of the calls made so far and of its arguments (`Env`).
* `time.Now().Unix()` is the argument `now` of the operations that read the
  clock; int64 arithmetic is integer arithmetic wrapped by `wrap64`.
-/

namespace virtualfilter

/-! ## Data model -/

/-- Identifier type `rpc.ID` (a Go string type). -/
abbrev ID := String

/-- Log filter criteria `web3Types.FilterQuery`; never inspected by `api.go`. -/
abbrev FilterQuery := String

/-- Log entries `types.Log`; never inspected by `api.go`. -/
abbrev Log := String

/-- Filter kinds named in `api.go`. -/
inductive FilterType
  | FilterTypeLog
  | FilterTypeBlock
  | FilterTypePendingTxn
  deriving DecidableEq, Repr

/-- Go `error` values that `api.go` produces or passes through. -/
inductive Error
  /-- The package sentinel `errFilterNotFound`. -/
  | errFilterNotFound
  /-- An error made by `errors.New msg` inside `api.go`. -/
  | new (msg : String)
  /-- An error reported by a collaborator. -/
  | external (msg : String)
  deriving DecidableEq, Repr

/-- Delegate information `fnDelegateInfo`: upstream filter id and node name. -/
structure fnDelegateInfo where
  fid : ID
  nodeName : String
  deriving DecidableEq, Repr

/-- The record `Filter` kept per proxy filter id. -/
structure Filter where
  typ : FilterType
  del : fnDelegateInfo
  crit : Option FilterQuery
  lastPollingTime : Int
  deriving DecidableEq, Repr

/-- Connection handle returned by `rpcutil.NewEthClient`. -/
abbrev EthClient := Nat

/-- The value `node.Web3goClient` built by `loadOrGetFnClient`. -/
structure Web3goClient where
  Client : EthClient
  URL : String
  deriving DecidableEq, Repr

/-- Values returned as `interface{}` by `GetFilterChanges`. -/
inductive Value
  | nil
  | bool (b : Bool)
  | changes (payload : String)
  | logs (ls : List Log)
  deriving DecidableEq, Repr

/-- Invocations of collaborators, in the order they are made. -/
inductive Call
  | NewEthClient (nodeUrl : String)
  | NewBlockFilter (client : Web3goClient)
  | NewPendingTransactionFilter (client : Web3goClient)
  | UninstallFilter (client : Web3goClient) (id : ID)
  | GetFilterChanges (client : Web3goClient) (id : ID)
  | delegateNewFilter (client : Web3goClient)
  | delegateUninstallFilter (id : ID)
  | GetLogs (client : Web3goClient) (crit : Option FilterQuery)
  | GetFilterLogs (client : Web3goClient) (crit : Option FilterQuery)
  deriving DecidableEq, Repr

/-- The collaborators of `FilterApi`. Each answer may depend on the calls made
before it. A Go result `(x, err)` of which the code reads `x` only when
`err == nil` is an `Except`; a result handed on unchanged is a pair. -/
structure Env where
  /-- Canonical node name of a node URL, `rpcutil.Url2NodeName`. -/
  Url2NodeName : String → String
  /-- Recogniser `IsFilterNotFoundError` for upstream errors. -/
  IsFilterNotFoundError : Option Error → Bool
  /-- Connection construction `rpcutil.NewEthClient`. -/
  NewEthClient : List Call → String → Except Error EthClient
  /-- Node client `Filter.NewBlockFilter`. -/
  NewBlockFilter : List Call → Web3goClient → Except Error ID
  /-- Node client `Filter.NewPendingTransactionFilter`. -/
  NewPendingTransactionFilter : List Call → Web3goClient → Except Error ID
  /-- Node client `Filter.UninstallFilter`. -/
  UninstallFilter : List Call → Web3goClient → ID → Bool × Option Error
  /-- Node client `Filter.GetFilterChanges`. -/
  GetFilterChanges : List Call → Web3goClient → ID → Value × Option Error
  /-- Filter System `delegateNewFilter`. -/
  delegateNewFilter : List Call → Web3goClient → Except Error ID
  /-- Filter System `delegateUninstallFilter`. -/
  delegateUninstallFilter : List Call → ID → Bool × Option Error
  /-- Filter System `GetLogs`. -/
  GetLogs : List Call → Web3goClient → Option FilterQuery → List Log × Option Error
  /-- Filter System `GetFilterLogs`. -/
  GetFilterLogs : List Call → Web3goClient → Option FilterQuery → Value × Option Error

/-- The map `map[rpc.ID]*Filter`. -/
abbrev Table := AList (fun _ : ID => Filter)

/-- The state of a `FilterApi`: the filter table, the client cache and the
ghost record of collaborator calls. -/
structure FilterApi where
  filters : Table
  clients : AList (fun _ : String => Web3goClient)
  calls : List Call
  deriving DecidableEq

/-- The constant `nilRpcId`. -/
def nilRpcId : ID := "0x0"

/-- The constant `ethEmptyLogs`. -/
def ethEmptyLogs : List Log := []

/-- The constant `time.Second`, in nanoseconds. -/
def Second : Int := 1000000000

/-- Two's-complement wrap of an integer into the int64 range. -/
def wrap64 (x : Int) : Int := (x + 2 ^ 63) % 2 ^ 64 - 2 ^ 63

/-- Whole Unix seconds `Time.Unix()` of an instant given in nanoseconds since
the epoch. -/
def Unix (t : Int) : Int := t / 1000000000

/-- Modelled from the spec: `newFilter` (its file is not part of the sources):
a record of the given kind, delegate and optional criteria, whose last access
time is the current time. -/
def newFilter (now : Int) (typ : FilterType) (del : fnDelegateInfo)
    (crit : Option FilterQuery) : Filter :=
  { typ := typ, del := del, crit := crit, lastPollingTime := now }

/-- Modelled from the spec: `Filter.IsDelegateFullNode` (its file is not part of
the sources): the node identity of the address equals the record's node
identity. -/
def Filter.IsDelegateFullNode (env : Env) (f : Filter) (nodeUrl : String) : Bool :=
  f.del.nodeName == env.Url2NodeName nodeUrl

/-! ## Proxy filter management -/

/-- Lookup `getFilter`. -/
def getFilter (api : FilterApi) (id : ID) : Option Filter :=
  api.filters.lookup id

/-- Insertion `addFilter`. -/
def addFilter (api : FilterApi) (id : ID) (filter : Filter) : FilterApi :=
  { api with filters := api.filters.insert id filter }

/-- Removal `delFilter`: the record found (if any) and the table without it. -/
def delFilter (api : FilterApi) (id : ID) : Option Filter × FilterApi :=
  match api.filters.lookup id with
  | some f => (some f, { api with filters := api.filters.erase id })
  | none => (none, api)

/-- Refresh `refreshFilterPollingTime`: sets the last polling time of a present
record to the clock reading. The position of an entry in the association list
carries no meaning. -/
def refreshFilterPollingTime (now : Int) (api : FilterApi) (id : ID) : FilterApi :=
  match api.filters.lookup id with
  | some f => { api with filters := api.filters.insert id { f with lastPollingTime := now } }
  | none => api

/-- The duration `time.Duration(now - f.lastPollingTime) * time.Second` in
int64 arithmetic. -/
def elapsed (now : Int) (f : Filter) : Int :=
  wrap64 (wrap64 (now - f.lastPollingTime) * Second)

/-- One iteration of the loop of `expireFilters` on the pair
`(api.filters, efilters)`. -/
def expireStep (now ttl : Int) (st : Table × Table) (e : Sigma (fun _ : ID => Filter)) :
    Table × Table :=
  if elapsed now e.2 ≥ ttl then (st.1.erase e.1, st.2.insert e.1 e.2) else st

/-- The sweep `expireFilters`: the expired records and the state without them.
The loop visits every entry of the table once (deleting the entry being visited
does not disturb a Go map iteration); `now` is the value of
`time.Now().Unix()`, taken to be the same at every iteration of one scan. -/
def expireFilters (now ttl : Int) (api : FilterApi) : Table × FilterApi :=
  let r := api.filters.entries.foldl (expireStep now ttl) (api.filters, ∅)
  (r.2, { api with filters := r.1 })

/-! ## Collaborator invocations -/

/-- Appends a call to the ghost record. -/
def FilterApi.record (api : FilterApi) (c : Call) : FilterApi :=
  { api with calls := api.calls ++ [c] }

/-- Modelled from the spec: `util.ConcurrentMap.LoadOrStoreFnErr` (its file is
not part of the sources), run sequentially: a cached entry is returned without
construction; otherwise the factory runs once, a failure is returned and not
cached, a success is cached and returned. The factory is the closure of
`loadOrGetFnClient`. -/
def loadOrGetFnClient (env : Env) (api : FilterApi) (nodeUrl : String) :
    Except Error Web3goClient × FilterApi :=
  let nodeName := env.Url2NodeName nodeUrl
  match api.clients.lookup nodeName with
  | some client => (.ok client, api)
  | none =>
    match env.NewEthClient api.calls nodeUrl with
    | .error err => (.error err, api.record (Call.NewEthClient nodeUrl))
    | .ok client =>
      let w3c : Web3goClient := { Client := client, URL := nodeUrl }
      (.ok w3c, { (api.record (Call.NewEthClient nodeUrl)) with
                    clients := api.clients.insert nodeName w3c })

/-- Invocation `api.sys.delegateUninstallFilter(id)`. -/
def sysDelegateUninstallFilter (env : Env) (api : FilterApi) (id : ID) :
    (Bool × Option Error) × FilterApi :=
  (env.delegateUninstallFilter api.calls id, api.record (Call.delegateUninstallFilter id))

/-- Invocation `api.sys.delegateNewFilter(w3c)`. -/
def sysDelegateNewFilter (env : Env) (api : FilterApi) (w3c : Web3goClient) :
    Except Error ID × FilterApi :=
  (env.delegateNewFilter api.calls w3c, api.record (Call.delegateNewFilter w3c))

/-- Invocation `api.sys.GetLogs(w3c, crit)`. -/
def sysGetLogs (env : Env) (api : FilterApi) (w3c : Web3goClient) (crit : Option FilterQuery) :
    (List Log × Option Error) × FilterApi :=
  (env.GetLogs api.calls w3c crit, api.record (Call.GetLogs w3c crit))

/-- Invocation `api.sys.GetFilterLogs(w3c, crit)`. -/
def sysGetFilterLogs (env : Env) (api : FilterApi) (w3c : Web3goClient)
    (crit : Option FilterQuery) : (Value × Option Error) × FilterApi :=
  (env.GetFilterLogs api.calls w3c crit, api.record (Call.GetFilterLogs w3c crit))

/-- Invocation `client.Filter.NewBlockFilter()`. -/
def clientNewBlockFilter (env : Env) (api : FilterApi) (client : Web3goClient) :
    Except Error ID × FilterApi :=
  (env.NewBlockFilter api.calls client, api.record (Call.NewBlockFilter client))

/-- Invocation `client.Filter.NewPendingTransactionFilter()`. -/
def clientNewPendingTransactionFilter (env : Env) (api : FilterApi) (client : Web3goClient) :
    Except Error ID × FilterApi :=
  (env.NewPendingTransactionFilter api.calls client,
    api.record (Call.NewPendingTransactionFilter client))

/-- Invocation `client.Filter.UninstallFilter(id)`. -/
def clientUninstallFilter (env : Env) (api : FilterApi) (client : Web3goClient) (id : ID) :
    (Bool × Option Error) × FilterApi :=
  (env.UninstallFilter api.calls client id, api.record (Call.UninstallFilter client id))

/-- Invocation `w3c.Filter.GetFilterChanges(fid)`. -/
def clientGetFilterChanges (env : Env) (api : FilterApi) (w3c : Web3goClient) (fid : ID) :
    (Value × Option Error) × FilterApi :=
  (env.GetFilterChanges api.calls w3c fid, api.record (Call.GetFilterChanges w3c fid))

/-! ## The operations of `FilterApi` -/

/-- Creation `NewBlockFilter`; `pfid` is the identifier drawn by `rpc.NewID()`. -/
def NewBlockFilter (env : Env) (now : Int) (pfid : ID) (api : FilterApi) (nodeUrl : String) :
    (ID × Option Error) × FilterApi :=
  match loadOrGetFnClient env api nodeUrl with
  | (.error err, api1) => ((nilRpcId, some err), api1)
  | (.ok client, api1) =>
    match clientNewBlockFilter env api1 client with
    | (.error err, api2) => ((nilRpcId, some err), api2)
    | (.ok fid, api2) =>
      ((pfid, none),
        addFilter api2 pfid (newFilter now FilterType.FilterTypeBlock
          { fid := fid, nodeName := env.Url2NodeName nodeUrl } none))

/-- Creation `NewPendingTransactionFilter`; `pfid` is the identifier drawn by
`rpc.NewID()`. -/
def NewPendingTransactionFilter (env : Env) (now : Int) (pfid : ID) (api : FilterApi)
    (nodeUrl : String) : (ID × Option Error) × FilterApi :=
  match loadOrGetFnClient env api nodeUrl with
  | (.error err, api1) => ((nilRpcId, some err), api1)
  | (.ok client, api1) =>
    match clientNewPendingTransactionFilter env api1 client with
    | (.error err, api2) => ((nilRpcId, some err), api2)
    | (.ok fid, api2) =>
      ((pfid, none),
        addFilter api2 pfid (newFilter now FilterType.FilterTypePendingTxn
          { fid := fid, nodeName := env.Url2NodeName nodeUrl } none))

/-- Creation `NewFilter` of a log filter. The delegate information is built
with `nodeName` only, so its `fid` is the zero value `""`. -/
def NewFilter (env : Env) (now : Int) (api : FilterApi) (nodeUrl : String)
    (crit : Option FilterQuery) : (ID × Option Error) × FilterApi :=
  match loadOrGetFnClient env api nodeUrl with
  | (.error err, api1) => ((nilRpcId, some err), api1)
  | (.ok w3c, api1) =>
    match sysDelegateNewFilter env api1 w3c with
    | (.error err, api2) => ((nilRpcId, some err), api2)
    | (.ok pfid, api2) =>
      ((pfid, some (Error.new "not supported yet")),
        addFilter api2 pfid (newFilter now FilterType.FilterTypePendingTxn
          { fid := "", nodeName := env.Url2NodeName nodeUrl } crit))

/-- Removal `UninstallFilter`. -/
def UninstallFilter (env : Env) (api : FilterApi) (nodeUrl : String) (id : ID) :
    (Bool × Option Error) × FilterApi :=
  match delFilter api id with
  | (none, api1) => ((false, none), api1)
  | (some f, api1) =>
    if f.typ = FilterType.FilterTypeLog then
      sysDelegateUninstallFilter env api1 id
    else if !f.IsDelegateFullNode env nodeUrl then
      ((true, none), api1)
    else
      match loadOrGetFnClient env api1 nodeUrl with
      | (.error err, api2) => ((false, some err), api2)
      | (.ok client, api2) => clientUninstallFilter env api2 client id

/-- Query `GetFilterLogs`; a nil slice is the empty list. -/
def GetFilterLogs (env : Env) (api : FilterApi) (nodeUrl : String) (id : ID) :
    (List Log × Option Error) × FilterApi :=
  match getFilter api id with
  | none => (([], some Error.errFilterNotFound), api)
  | some f =>
    if f.typ ≠ FilterType.FilterTypeLog then
      (([], some Error.errFilterNotFound), api)
    else if !f.IsDelegateFullNode env nodeUrl then
      let api1 := (delFilter api id).2
      let api2 := (sysDelegateUninstallFilter env api1 id).2
      (([], some Error.errFilterNotFound), api2)
    else
      match loadOrGetFnClient env api nodeUrl with
      | (.error err, api1) => (([], some err), api1)
      | (.ok w3c, api1) => sysGetLogs env api1 w3c f.crit

/-- Polling `GetFilterChanges`. -/
def GetFilterChanges (env : Env) (now : Int) (api : FilterApi) (nodeUrl : String) (id : ID) :
    (Value × Option Error) × FilterApi :=
  match getFilter api id with
  | none => ((Value.nil, some Error.errFilterNotFound), api)
  | some f =>
    if !f.IsDelegateFullNode env nodeUrl then
      let api1 := (delFilter api id).2
      if f.typ = FilterType.FilterTypeLog then
        let r := sysDelegateUninstallFilter env api1 id
        ((Value.bool r.1.1, r.1.2), r.2)
      else
        ((Value.nil, some Error.errFilterNotFound), api1)
    else
      let api1 := refreshFilterPollingTime now api id
      match loadOrGetFnClient env api1 nodeUrl with
      | (.error err, api2) => ((Value.nil, some err), api2)
      | (.ok w3c, api2) =>
        if f.typ = FilterType.FilterTypeLog then
          sysGetFilterLogs env api2 w3c f.crit
        else
          let r := clientGetFilterChanges env api2 w3c f.del.fid
          if env.IsFilterNotFoundError r.1.2 then
            (r.1, (delFilter r.2 id).2)
          else
            r

/-- One tick of `timeoutLoop`: the sweep, then a delegate uninstall for every
expired record of kind log, in the order of the expired map; the results of the
uninstall calls are discarded. -/
def timeoutTick (env : Env) (now timeout : Int) (api : FilterApi) : FilterApi :=
  let r := expireFilters now timeout api
  r.1.entries.foldl
    (fun a e =>
      if e.2.typ = FilterType.FilterTypeLog then (sysDelegateUninstallFilter env a e.1).2 else a)
    r.2

/-- Modelled from the spec: the data-model invariant of a record, "criteria is
set iff kind == Log; remoteFilterId is set iff kind != Log", an unset
`remoteFilterId` being the zero value `""`. -/
def recordInvariant (f : Filter) : Prop :=
  (f.crit.isSome = true ↔ f.typ = FilterType.FilterTypeLog)
  ∧ (f.del.fid ≠ "" ↔ f.typ ≠ FilterType.FilterTypeLog)

instance (f : Filter) : Decidable (recordInvariant f) := by
  unfold recordInvariant
  infer_instance

/-! ## Sample collaborators and states -/

/-- Sample collaborators: every call succeeds; node names are the URLs. -/
def sampleEnv : Env where
  Url2NodeName := fun u => u
  IsFilterNotFoundError := fun e => e == some (Error.external "filter not found")
  NewEthClient := fun _ _ => .ok 7
  NewBlockFilter := fun _ _ => .ok "r1"
  NewPendingTransactionFilter := fun _ _ => .ok "r2"
  UninstallFilter := fun _ _ _ => (true, none)
  GetFilterChanges := fun _ _ _ => (Value.changes "c", none)
  delegateNewFilter := fun _ _ => .ok "d1"
  delegateUninstallFilter := fun _ _ => (true, none)
  GetLogs := fun _ _ _ => ([], none)
  GetFilterLogs := fun _ _ _ => (Value.logs [], none)

/-- Sample collaborators whose connection construction fails. -/
def downEnv : Env :=
  { sampleEnv with NewEthClient := fun _ _ => .error (Error.external "dial failed") }

/-- Sample collaborators whose Filter System refuses to delegate. -/
def refusingEnv : Env :=
  { sampleEnv with delegateNewFilter := fun _ _ => .error (Error.external "no delegate") }

/-- Sample collaborators whose node client reports that the filter is gone. -/
def goneEnv : Env :=
  { sampleEnv with
    GetFilterChanges := fun _ _ _ => (Value.nil, some (Error.external "filter not found")) }

/-- Sample collaborators whose node client reports a transient failure. -/
def flakyEnv : Env :=
  { sampleEnv with
    GetFilterChanges := fun _ _ _ => (Value.nil, some (Error.external "timeout")) }

/-- The state of a fresh `FilterApi`. -/
def emptyApi : FilterApi := { filters := ∅, clients := ∅, calls := [] }

/-- A block filter record bound to node `"A"` with upstream id `"r1"`. -/
def blockOnA : Filter :=
  { typ := FilterType.FilterTypeBlock, del := { fid := "r1", nodeName := "A" },
    crit := none, lastPollingTime := 100 }

/-- A log filter record bound to node `"A"`. -/
def logOnA : Filter :=
  { typ := FilterType.FilterTypeLog, del := { fid := "", nodeName := "A" },
    crit := some "q", lastPollingTime := 100 }

/-- A state whose table holds `blockOnA` under handle `"h1"`. -/
def apiWithBlock : FilterApi := addFilter emptyApi "h1" blockOnA

/-- A state whose table holds `logOnA` under handle `"h2"`. -/
def apiWithLog : FilterApi := addFilter emptyApi "h2" logOnA

/-- A pending-transaction filter record bound to node `"A"`, polled at 108. -/
def pendingOnA : Filter :=
  { typ := FilterType.FilterTypePendingTxn, del := { fid := "r2", nodeName := "A" },
    crit := none, lastPollingTime := 108 }

/-- A state whose table holds `blockOnA` under `"h1"` and `pendingOnA` under
`"h3"`. -/
def apiWithTwo : FilterApi := addFilter apiWithBlock "h3" pendingOnA

/-! ## Sequences of operations -/

/-- One call of an operation of `FilterApi`, with its arguments, the clock
reading it sees and (for the two proxy creations) the identifier drawn by
`rpc.NewID()`. -/
inductive Op
  | NewBlockFilter (now : Int) (pfid : ID) (nodeUrl : String)
  | NewPendingTransactionFilter (now : Int) (pfid : ID) (nodeUrl : String)
  | NewFilter (now : Int) (nodeUrl : String) (crit : Option FilterQuery)
  | UninstallFilter (nodeUrl : String) (id : ID)
  | GetFilterLogs (nodeUrl : String) (id : ID)
  | GetFilterChanges (now : Int) (nodeUrl : String) (id : ID)
  | expireFilters (now ttl : Int)
  | timeoutTick (now timeout : Int)
  deriving DecidableEq, Repr

/-- The state after one operation. -/
def Op.exec (env : Env) (api : FilterApi) : Op → FilterApi
  | Op.NewBlockFilter now pfid nodeUrl =>
    (virtualfilter.NewBlockFilter env now pfid api nodeUrl).2
  | Op.NewPendingTransactionFilter now pfid nodeUrl =>
    (virtualfilter.NewPendingTransactionFilter env now pfid api nodeUrl).2
  | Op.NewFilter now nodeUrl crit => (virtualfilter.NewFilter env now api nodeUrl crit).2
  | Op.UninstallFilter nodeUrl id => (virtualfilter.UninstallFilter env api nodeUrl id).2
  | Op.GetFilterLogs nodeUrl id => (virtualfilter.GetFilterLogs env api nodeUrl id).2
  | Op.GetFilterChanges now nodeUrl id =>
    (virtualfilter.GetFilterChanges env now api nodeUrl id).2
  | Op.expireFilters now ttl => (virtualfilter.expireFilters now ttl api).2
  | Op.timeoutTick now timeout => virtualfilter.timeoutTick env now timeout api

/-- The state after a sequence of operations, run one after the other. -/
def runOps (env : Env) (api : FilterApi) (ops : List Op) : FilterApi :=
  ops.foldl (Op.exec env) api

/-- No record of the table is of kind log. -/
def noLogRecord (api : FilterApi) : Prop :=
  ∀ id f, getFilter api id = some f → f.typ ≠ FilterType.FilterTypeLog

/-- The delegate uninstall calls of one sweeper tick: one per expired record of
kind log, in the order of the expired map. -/
def uninstallCalls (expired : Table) : List Call :=
  (expired.entries.filter (fun e => e.2.typ = FilterType.FilterTypeLog)).map
    (fun e => Call.delegateUninstallFilter e.1)

/-- A state whose table holds `logOnA` under `"h2"` and `blockOnA` under
`"h1"`. -/
def apiWithLogAndBlock : FilterApi := addFilter apiWithLog "h1" blockOnA

end virtualfilter

/-! ## Rate limit middlewares (`util/rpc/middlewares/rate_limit.go`) -/

namespace middlewares

/-- The request context `context.Context`, never inspected by the middlewares. -/
abbrev Context := String

/-- Go `error` values made by `errors.New`. -/
inductive GoError
  | new (msg : String)
  deriving DecidableEq, Repr

/-- The message type `rpc.JsonRpcMessage`: the method read by `RateLimit` and
the remaining content. -/
structure JsonRpcMessage where
  ID : String
  Method : String
  Payload : String
  deriving DecidableEq, Repr

/-- Invocations made by the middlewares, in the order they are made. -/
inductive Event
  | WhiteListAllow (ctx : Context)
  | RateLimitAllow (ctx : Context) (key : String) (weight : Int)
  | next (ctx : Context) (msg : JsonRpcMessage)
  | nextBatch (ctx : Context) (msgs : List JsonRpcMessage)
  deriving DecidableEq, Repr

/-- The helpers of package `handlers` and of `rpc.JsonRpcMessage` used by the
middlewares. The answer of a gate may depend on the invocations made before
it. -/
structure Handlers where
  /-- Allow-list gate `handlers.WhiteListAllow`. -/
  WhiteListAllow : List Event → Context → Bool
  /-- Rate gate `handlers.RateLimitAllow`. -/
  RateLimitAllow : List Event → Context → String → Int → Bool
  /-- Method `JsonRpcMessage.ErrorResponse`. -/
  ErrorResponse : JsonRpcMessage → GoError → JsonRpcMessage

/-- The next handler of `RateLimit`, `rpc.HandleCallMsgFunc`. -/
abbrev HandleCallMsgFunc := List Event → Context → JsonRpcMessage → JsonRpcMessage

/-- The next handler of `RateLimitBatch`, `rpc.HandleBatchFunc`. -/
abbrev HandleBatchFunc := List Event → Context → List JsonRpcMessage → List JsonRpcMessage

/-- The error `errRateLimit`. -/
def errRateLimit : GoError := GoError.new "too many requests"

/-- The invocations of a next handler among a list of events. -/
def invocations (tr : List Event) : List Event :=
  tr.filter (fun e =>
    match e with
    | Event.next _ _ => true
    | Event.nextBatch _ _ => true
    | _ => false)

/-- The middleware `RateLimitBatch`: the responses and the invocations made so
far. The second gate is asked only when the first one refuses. -/
def RateLimitBatch (hd : Handlers) (next : HandleBatchFunc) (tr : List Event) (ctx : Context)
    (msgs : List JsonRpcMessage) : List JsonRpcMessage × List Event :=
  let tr1 := tr ++ [Event.WhiteListAllow ctx]
  if hd.WhiteListAllow tr ctx then
    (next tr1 ctx msgs, tr1 ++ [Event.nextBatch ctx msgs])
  else
    let tr2 := tr1 ++ [Event.RateLimitAllow ctx "rpc_batch" msgs.length]
    if hd.RateLimitAllow tr1 ctx "rpc_batch" msgs.length then
      (next tr2 ctx msgs, tr2 ++ [Event.nextBatch ctx msgs])
    else
      (msgs.foldl (fun responses v => responses ++ [hd.ErrorResponse v errRateLimit]) [], tr2)

/-- The middleware `RateLimit`: the response and the invocations made so far. -/
def RateLimit (hd : Handlers) (next : HandleCallMsgFunc) (tr : List Event) (ctx : Context)
    (msg : JsonRpcMessage) : JsonRpcMessage × List Event :=
  let tr1 := tr ++ [Event.WhiteListAllow ctx]
  if hd.WhiteListAllow tr ctx then
    (next tr1 ctx msg, tr1 ++ [Event.next ctx msg])
  else
    let tr2 := tr1 ++ [Event.RateLimitAllow ctx "rpc_all" 1]
    if !hd.RateLimitAllow tr1 ctx "rpc_all" 1 then
      (hd.ErrorResponse msg errRateLimit, tr2)
    else
      let tr3 := tr2 ++ [Event.RateLimitAllow ctx msg.Method 1]
      if !hd.RateLimitAllow tr2 ctx msg.Method 1 then
        (hd.ErrorResponse msg errRateLimit, tr3)
      else
        (next tr3 ctx msg, tr3 ++ [Event.next ctx msg])

/-- Sample error response: the message with the error text as payload. -/
def sampleErrorResponse (msg : JsonRpcMessage) (err : GoError) : JsonRpcMessage :=
  match err with
  | GoError.new text => { msg with Payload := text }

/-- Sample helpers: nobody is allow-listed; the overall and the batch gates
admit, the gate of method `"eth_getLogs"` refuses. -/
def strictHandlers : Handlers where
  WhiteListAllow := fun _ _ => false
  RateLimitAllow := fun _ _ key weight => key != "eth_getLogs" && decide (weight ≤ 2)
  ErrorResponse := sampleErrorResponse

/-- Sample helpers: everybody is allow-listed. -/
def openHandlers : Handlers :=
  { strictHandlers with WhiteListAllow := fun _ _ => true }

/-- Sample next handler: echoes the message with payload `"ok"`. -/
def sampleNext : HandleCallMsgFunc := fun _ _ msg => { msg with Payload := "ok" }

/-- Sample next batch handler: echoes the messages with payload `"ok"`. -/
def sampleNextBatch : HandleBatchFunc :=
  fun _ _ msgs => msgs.map (fun msg => { msg with Payload := "ok" })

/-- Sample message calling `"eth_blockNumber"`. -/
def msgBlockNumber : JsonRpcMessage := { ID := "1", Method := "eth_blockNumber", Payload := "" }

/-- Sample message calling `"eth_getLogs"`. -/
def msgGetLogs : JsonRpcMessage := { ID := "2", Method := "eth_getLogs", Payload := "" }

end middlewares

namespace virtualfilter

/-! ## Lemmas on the table operations -/

@[simp] theorem record_filters (api : FilterApi) (c : Call) :
    (api.record c).filters = api.filters := rfl

@[simp] theorem record_clients (api : FilterApi) (c : Call) :
    (api.record c).clients = api.clients := rfl

@[simp] theorem record_calls (api : FilterApi) (c : Call) :
    (api.record c).calls = api.calls ++ [c] := rfl

theorem delFilter_absent (api : FilterApi) (id : ID) (h : getFilter api id = none) :
    delFilter api id = (none, api) := by
  unfold getFilter at h
  simp [delFilter, h]

theorem delFilter_present (api : FilterApi) (id : ID) (f : Filter)
    (h : getFilter api id = some f) :
    delFilter api id = (some f, { api with filters := api.filters.erase id }) := by
  unfold getFilter at h
  simp [delFilter, h]

@[simp] theorem delFilter_fst (api : FilterApi) (id : ID) :
    (delFilter api id).1 = getFilter api id := by
  cases h : getFilter api id with
  | none => rw [delFilter_absent api id h]
  | some f => rw [delFilter_present api id f h]

@[simp] theorem delFilter_calls (api : FilterApi) (id : ID) :
    (delFilter api id).2.calls = api.calls := by
  cases h : getFilter api id with
  | none => rw [delFilter_absent api id h]
  | some f => rw [delFilter_present api id f h]

@[simp] theorem delFilter_clients (api : FilterApi) (id : ID) :
    (delFilter api id).2.clients = api.clients := by
  cases h : getFilter api id with
  | none => rw [delFilter_absent api id h]
  | some f => rw [delFilter_present api id f h]

@[simp] theorem getFilter_delFilter_self (api : FilterApi) (id : ID) :
    getFilter (delFilter api id).2 id = none := by
  cases h : getFilter api id with
  | none => rw [delFilter_absent api id h]; exact h
  | some f => rw [delFilter_present api id f h]; exact AList.lookup_erase id api.filters

theorem getFilter_delFilter_ne (api : FilterApi) (id id' : ID) (hne : id' ≠ id) :
    getFilter (delFilter api id).2 id' = getFilter api id' := by
  cases h : getFilter api id with
  | none => rw [delFilter_absent api id h]
  | some f => rw [delFilter_present api id f h]; exact AList.lookup_erase_ne hne

theorem GetFilterChanges_absent (env : Env) (now : Int) (api : FilterApi) (nodeUrl : String)
    (id : ID) (h : getFilter api id = none) :
    GetFilterChanges env now api nodeUrl id = ((Value.nil, some Error.errFilterNotFound), api) := by
  simp [GetFilterChanges, h]

theorem UninstallFilter_of_absent (env : Env) (api : FilterApi) (nodeUrl : String) (id : ID)
    (h : getFilter api id = none) :
    UninstallFilter env api nodeUrl id = ((false, none), api) := by
  simp [UninstallFilter, delFilter_absent api id h]

/-! ## Staleness on `GetFilterChanges` -/

/-- C1: for a handle `h` whose record `f` is of kind block or pending
transaction, `GetFilterChanges` with a node address `nodeB` that is not the
record's delegate node returns `errFilterNotFound`, makes no collaborator call
and leaves the client cache alone, removes `h` from the table, and any
following `GetFilterChanges` on `h` (for every node address `nodeA`, the
original one included) returns `errFilterNotFound` and changes nothing. -/
theorem GetFilterChanges_stale_proxy (env : Env) (now : Int) (api : FilterApi)
    (nodeB : String) (h : ID) (f : Filter)
    (hf : getFilter api h = some f)
    (hk : f.typ = FilterType.FilterTypeBlock ∨ f.typ = FilterType.FilterTypePendingTxn)
    (hB : f.IsDelegateFullNode env nodeB = false) :
    (GetFilterChanges env now api nodeB h).1 = (Value.nil, some Error.errFilterNotFound)
    ∧ (GetFilterChanges env now api nodeB h).2.calls = api.calls
    ∧ (GetFilterChanges env now api nodeB h).2.clients = api.clients
    ∧ getFilter (GetFilterChanges env now api nodeB h).2 h = none
    ∧ ∀ (now' : Int) (nodeA : String),
        GetFilterChanges env now' (GetFilterChanges env now api nodeB h).2 nodeA h
          = ((Value.nil, some Error.errFilterNotFound),
              (GetFilterChanges env now api nodeB h).2) := by
  have hlog : f.typ ≠ FilterType.FilterTypeLog := by
    rcases hk with hk | hk <;> simp [hk]
  have hres : GetFilterChanges env now api nodeB h
      = ((Value.nil, some Error.errFilterNotFound), (delFilter api h).2) := by
    simp [GetFilterChanges, hf, hB, hlog]
  rw [hres]
  refine ⟨rfl, by simp, by simp, by simp, ?_⟩
  intro now' nodeA
  exact GetFilterChanges_absent env now' _ nodeA h (by simp)

/-- Witness of C1 on the sample state: handle `"h1"` bound to node `"A"`,
polled through node `"B"`. -/
theorem GetFilterChanges_stale_proxy_witness :
    getFilter apiWithBlock "h1" = some blockOnA
    ∧ (blockOnA.typ = FilterType.FilterTypeBlock
        ∨ blockOnA.typ = FilterType.FilterTypePendingTxn)
    ∧ blockOnA.IsDelegateFullNode sampleEnv "B" = false
    ∧ (GetFilterChanges sampleEnv 105 apiWithBlock "B" "h1").1
        = (Value.nil, some Error.errFilterNotFound)
    ∧ (GetFilterChanges sampleEnv 105 apiWithBlock "B" "h1").2.calls = apiWithBlock.calls
    ∧ (GetFilterChanges sampleEnv 105 apiWithBlock "B" "h1").2.clients = apiWithBlock.clients
    ∧ getFilter (GetFilterChanges sampleEnv 105 apiWithBlock "B" "h1").2 "h1" = none
    ∧ ∀ (now' : Int) (nodeA : String),
        GetFilterChanges sampleEnv now' (GetFilterChanges sampleEnv 105 apiWithBlock "B" "h1").2
            nodeA "h1"
          = ((Value.nil, some Error.errFilterNotFound),
              (GetFilterChanges sampleEnv 105 apiWithBlock "B" "h1").2) :=
  ⟨by decide, by decide, by decide,
    GetFilterChanges_stale_proxy sampleEnv 105 apiWithBlock "B" "h1" blockOnA
      (by decide) (by decide) (by decide)⟩

/-- The stale log branch of `GetFilterChanges`, evaluated on a table built by
hand (no sequence of operations stores a record of kind log): the log record
`"h2"` bound to node `"A"` is polled through node `"B"` while the Filter System
answers the uninstall with `(true, nil)`. The record is removed, the uninstall
is requested once, and the call hands on the boxed `true` with a nil error. -/
theorem GetFilterChanges_stale_log_returns_uninstall_result :
    getFilter apiWithLog "h2" = some logOnA
    ∧ logOnA.IsDelegateFullNode sampleEnv "B" = false
    ∧ (GetFilterChanges sampleEnv 105 apiWithLog "B" "h2").1 = (Value.bool true, none)
    ∧ (GetFilterChanges sampleEnv 105 apiWithLog "B" "h2").1.2
        ≠ some Error.errFilterNotFound
    ∧ getFilter (GetFilterChanges sampleEnv 105 apiWithLog "B" "h2").2 "h2" = none
    ∧ (GetFilterChanges sampleEnv 105 apiWithLog "B" "h2").2.calls
        = [Call.delegateUninstallFilter "h2"] := by
  decide

/-! ## `UninstallFilter` -/

/-- C3 (counterexample): uninstalling the block filter `"h1"`, bound to node
`"A"`, through node `"B"` reports a successful uninstall `(true, nil)`, not
`errFilterNotFound`. -/
theorem UninstallFilter_stale_proxy_not_FilterNotFound :
    getFilter apiWithBlock "h1" = some blockOnA
    ∧ blockOnA.IsDelegateFullNode sampleEnv "B" = false
    ∧ (UninstallFilter sampleEnv apiWithBlock "B" "h1").1 = (true, none)
    ∧ (UninstallFilter sampleEnv apiWithBlock "B" "h1").1.2
        ≠ some Error.errFilterNotFound := by
  decide

/-- C3 (amended): for a handle `h` whose record `f` is of kind block or pending
transaction, `UninstallFilter` with a node address that is not the record's
delegate node removes the record, makes no collaborator call and returns
`(true, nil)`. -/
theorem UninstallFilter_stale_proxy (env : Env) (api : FilterApi) (nodeB : String) (h : ID)
    (f : Filter) (hf : getFilter api h = some f)
    (hk : f.typ = FilterType.FilterTypeBlock ∨ f.typ = FilterType.FilterTypePendingTxn)
    (hB : f.IsDelegateFullNode env nodeB = false) :
    (UninstallFilter env api nodeB h).1 = (true, none)
    ∧ getFilter (UninstallFilter env api nodeB h).2 h = none
    ∧ (UninstallFilter env api nodeB h).2.calls = api.calls
    ∧ (UninstallFilter env api nodeB h).2.clients = api.clients := by
  have hlog : f.typ ≠ FilterType.FilterTypeLog := by
    rcases hk with hk | hk <;> simp [hk]
  have hres : UninstallFilter env api nodeB h
      = ((true, none), { api with filters := api.filters.erase h }) := by
    simp [UninstallFilter, delFilter_present api h f hf, hB, hlog]
  rw [hres]
  exact ⟨rfl, AList.lookup_erase h api.filters, rfl, rfl⟩

/-- Witness of the amended C3 on the sample state. -/
theorem UninstallFilter_stale_proxy_witness :
    getFilter apiWithBlock "h1" = some blockOnA
    ∧ (blockOnA.typ = FilterType.FilterTypeBlock
        ∨ blockOnA.typ = FilterType.FilterTypePendingTxn)
    ∧ blockOnA.IsDelegateFullNode sampleEnv "B" = false
    ∧ (UninstallFilter sampleEnv apiWithBlock "B" "h1").1 = (true, none)
    ∧ getFilter (UninstallFilter sampleEnv apiWithBlock "B" "h1").2 "h1" = none
    ∧ (UninstallFilter sampleEnv apiWithBlock "B" "h1").2.calls = apiWithBlock.calls
    ∧ (UninstallFilter sampleEnv apiWithBlock "B" "h1").2.clients = apiWithBlock.clients :=
  ⟨by decide, by decide, by decide,
    UninstallFilter_stale_proxy sampleEnv apiWithBlock "B" "h1" blockOnA
      (by decide) (by decide) (by decide)⟩

/-- Client resolution never touches the filter table. -/
theorem loadOrGetFnClient_filters (env : Env) (api : FilterApi) (nodeUrl : String) :
    (loadOrGetFnClient env api nodeUrl).2.filters = api.filters := by
  unfold loadOrGetFnClient
  simp only
  split
  · rfl
  · split <;> rfl

/-- The table after `UninstallFilter` is the table after its `delFilter`. -/
theorem UninstallFilter_filters (env : Env) (api : FilterApi) (nodeUrl : String) (id : ID) :
    (UninstallFilter env api nodeUrl id).2.filters = (delFilter api id).2.filters := by
  unfold UninstallFilter
  rcases hd : delFilter api id with ⟨o, api1⟩
  cases o with
  | none => rfl
  | some f =>
    simp only
    split_ifs
    · rfl
    · rfl
    · have hl := loadOrGetFnClient_filters env api1 nodeUrl
      rcases hr : loadOrGetFnClient env api1 nodeUrl with ⟨r, api2⟩
      rw [hr] at hl
      cases r with
      | error err => exact hl
      | ok client => exact hl

/-- The handle is absent after `UninstallFilter`, whatever the call did. -/
theorem getFilter_UninstallFilter_self (env : Env) (api : FilterApi) (nodeUrl : String)
    (id : ID) : getFilter (UninstallFilter env api nodeUrl id).2 id = none := by
  have hdel : getFilter (delFilter api id).2 id = none := getFilter_delFilter_self api id
  unfold getFilter at hdel ⊢
  rw [UninstallFilter_filters]
  exact hdel

/-- C4: for a handle `h` absent from the table, `UninstallFilter` returns
`(false, nil)` and leaves the whole state (table, client cache and record of
collaborator calls) unchanged; and in every state a second `UninstallFilter` on
the handle of a first one returns `(false, nil)` and changes nothing, whatever
the first call returned and whatever node addresses are used. -/
theorem UninstallFilter_absent_noop (env : Env) (api : FilterApi) (node node' : String)
    (h : ID) :
    (getFilter api h = none → UninstallFilter env api node h = ((false, none), api))
    ∧ UninstallFilter env (UninstallFilter env api node h).2 node' h
        = ((false, none), (UninstallFilter env api node h).2) :=
  ⟨UninstallFilter_of_absent env api node h,
    UninstallFilter_of_absent env _ node' h (getFilter_UninstallFilter_self env api node h)⟩

/-- Witness of C4: an absent handle on the fresh state, and a double uninstall
of the present handle `"h1"`. -/
theorem UninstallFilter_absent_noop_witness :
    getFilter emptyApi "h1" = none
    ∧ UninstallFilter sampleEnv emptyApi "A" "h1" = ((false, none), emptyApi)
    ∧ UninstallFilter sampleEnv (UninstallFilter sampleEnv apiWithBlock "A" "h1").2 "A" "h1"
        = ((false, none), (UninstallFilter sampleEnv apiWithBlock "A" "h1").2) :=
  ⟨by decide,
    (UninstallFilter_absent_noop sampleEnv emptyApi "A" "A" "h1").1 (by decide),
    (UninstallFilter_absent_noop sampleEnv apiWithBlock "A" "A" "h1").2⟩

/-- C5 (the code at the failing input): the block filter `"h1"` was created on
node `"A"` with upstream id `"r1"`. `UninstallFilter` through node `"A"`
resolves the client and calls the node client's `UninstallFilter` with the
handle `"h1"`, not with the upstream id `"r1"`; it returns that call's
result. -/
theorem UninstallFilter_passes_handle_upstream :
    getFilter apiWithBlock "h1" = some blockOnA
    ∧ blockOnA.del.fid = "r1"
    ∧ blockOnA.IsDelegateFullNode sampleEnv "A" = true
    ∧ (UninstallFilter sampleEnv apiWithBlock "A" "h1").2.calls
        = [Call.NewEthClient "A", Call.UninstallFilter { Client := 7, URL := "A" } "h1"]
    ∧ Call.UninstallFilter { Client := 7, URL := "A" } "r1"
        ∉ (UninstallFilter sampleEnv apiWithBlock "A" "h1").2.calls
    ∧ (UninstallFilter sampleEnv apiWithBlock "A" "h1").1
        = sampleEnv.UninstallFilter [Call.NewEthClient "A"] { Client := 7, URL := "A" } "h1" := by
  decide

/-! ## `NewFilter` -/

/-- C6 (the code at the failing input): on a fresh state, with node resolution
and delegation succeeding (delegated handle `"d1"`), `NewFilter` for node `"A"`
and criteria `"q"` stores under `"d1"` a record with the given criteria and no
upstream id, but of kind pending transaction, not log; the record violates the
data-model invariant. -/
theorem NewFilter_stores_pending_txn_kind :
    (loadOrGetFnClient sampleEnv emptyApi "A").1 = .ok { Client := 7, URL := "A" }
    ∧ sampleEnv.delegateNewFilter (loadOrGetFnClient sampleEnv emptyApi "A").2.calls
        { Client := 7, URL := "A" } = .ok "d1"
    ∧ getFilter (NewFilter sampleEnv 100 emptyApi "A" (some "q")).2 "d1"
        = some { typ := FilterType.FilterTypePendingTxn,
                 del := { fid := "", nodeName := "A" },
                 crit := some "q", lastPollingTime := 100 }
    ∧ (∀ f, getFilter (NewFilter sampleEnv 100 emptyApi "A" (some "q")).2 "d1" = some f →
        f.typ ≠ FilterType.FilterTypeLog ∧ ¬ recordInvariant f) := by
  refine ⟨rfl, rfl, by decide, ?_⟩
  intro f hf
  have h : getFilter (NewFilter sampleEnv 100 emptyApi "A" (some "q")).2 "d1"
      = some { typ := FilterType.FilterTypePendingTxn,
               del := { fid := "", nodeName := "A" },
               crit := some "q", lastPollingTime := 100 } := by decide
  rw [h] at hf
  cases hf
  decide

/-- C7: `NewFilter` returns a non-nil error in every case. When node resolution
and delegation succeed it returns the delegated handle together with the error
"not supported yet", the delegation call has been made, and the table holds a
record with the given criteria under the delegated handle. When node resolution
fails, or delegation fails, it returns `nilRpcId` with the failure and the
table is unchanged. -/
theorem NewFilter_always_errors (env : Env) (now : Int) (api : FilterApi) (nodeUrl : String)
    (crit : Option FilterQuery) :
    (NewFilter env now api nodeUrl crit).1.2 ≠ none
    ∧ (∀ w3c pfid, (loadOrGetFnClient env api nodeUrl).1 = .ok w3c →
        env.delegateNewFilter (loadOrGetFnClient env api nodeUrl).2.calls w3c = .ok pfid →
          (NewFilter env now api nodeUrl crit).1 = (pfid, some (Error.new "not supported yet"))
          ∧ (NewFilter env now api nodeUrl crit).2.calls
              = (loadOrGetFnClient env api nodeUrl).2.calls ++ [Call.delegateNewFilter w3c]
          ∧ ∃ f, getFilter (NewFilter env now api nodeUrl crit).2 pfid = some f
              ∧ f.crit = crit ∧ f.del.nodeName = env.Url2NodeName nodeUrl)
    ∧ (∀ err, (loadOrGetFnClient env api nodeUrl).1 = .error err →
        (NewFilter env now api nodeUrl crit).1 = (nilRpcId, some err)
        ∧ (NewFilter env now api nodeUrl crit).2.filters = api.filters)
    ∧ (∀ w3c err, (loadOrGetFnClient env api nodeUrl).1 = .ok w3c →
        env.delegateNewFilter (loadOrGetFnClient env api nodeUrl).2.calls w3c = .error err →
          (NewFilter env now api nodeUrl crit).1 = (nilRpcId, some err)
          ∧ (NewFilter env now api nodeUrl crit).2.filters = api.filters) := by
  have hl := loadOrGetFnClient_filters env api nodeUrl
  unfold NewFilter
  rcases hr : loadOrGetFnClient env api nodeUrl with ⟨r, api1⟩
  rw [hr] at hl
  cases r with
  | error e =>
    refine ⟨by simp, ?_, ?_, ?_⟩
    · intro w3c pfid h1; cases h1
    · intro err h1; cases h1; exact ⟨rfl, hl⟩
    · intro w3c err h1; cases h1
  | ok c =>
    simp only [sysDelegateNewFilter]
    cases hd : env.delegateNewFilter api1.calls c with
    | error e =>
      refine ⟨by simp, ?_, ?_, ?_⟩
      · intro w3c pfid h1 h2; cases h1; rw [hd] at h2; cases h2
      · intro err h1; cases h1
      · intro w3c err h1 h2; cases h1; rw [hd] at h2; cases h2; exact ⟨rfl, hl⟩
    | ok p =>
      refine ⟨by simp, ?_, ?_, ?_⟩
      · intro w3c pfid h1 h2
        cases h1
        rw [hd] at h2
        cases h2
        refine ⟨rfl, rfl, _, AList.lookup_insert _, rfl, rfl⟩
      · intro err h1; cases h1
      · intro w3c err h1 h2; cases h1; rw [hd] at h2; cases h2

/-- Witness of C7: the success case on the sample collaborators, the failure of
connection construction and the failure of delegation. -/
theorem NewFilter_always_errors_witness :
    ((loadOrGetFnClient sampleEnv emptyApi "A").1 = .ok { Client := 7, URL := "A" }
      ∧ sampleEnv.delegateNewFilter (loadOrGetFnClient sampleEnv emptyApi "A").2.calls
          { Client := 7, URL := "A" } = .ok "d1"
      ∧ (NewFilter sampleEnv 100 emptyApi "A" (some "q")).1
          = ("d1", some (Error.new "not supported yet"))
      ∧ (NewFilter sampleEnv 100 emptyApi "A" (some "q")).2.calls
          = (loadOrGetFnClient sampleEnv emptyApi "A").2.calls
              ++ [Call.delegateNewFilter { Client := 7, URL := "A" }]
      ∧ ∃ f, getFilter (NewFilter sampleEnv 100 emptyApi "A" (some "q")).2 "d1" = some f
          ∧ f.crit = some "q" ∧ f.del.nodeName = sampleEnv.Url2NodeName "A")
    ∧ ((loadOrGetFnClient downEnv emptyApi "A").1 = .error (Error.external "dial failed")
      ∧ (NewFilter downEnv 100 emptyApi "A" (some "q")).1
          = (nilRpcId, some (Error.external "dial failed"))
      ∧ (NewFilter downEnv 100 emptyApi "A" (some "q")).2.filters = emptyApi.filters)
    ∧ ((loadOrGetFnClient refusingEnv emptyApi "A").1 = .ok { Client := 7, URL := "A" }
      ∧ refusingEnv.delegateNewFilter (loadOrGetFnClient refusingEnv emptyApi "A").2.calls
          { Client := 7, URL := "A" } = .error (Error.external "no delegate")
      ∧ (NewFilter refusingEnv 100 emptyApi "A" (some "q")).1
          = (nilRpcId, some (Error.external "no delegate"))
      ∧ (NewFilter refusingEnv 100 emptyApi "A" (some "q")).2.filters = emptyApi.filters) :=
  ⟨⟨rfl, rfl,
      (NewFilter_always_errors sampleEnv 100 emptyApi "A" (some "q")).2.1
        { Client := 7, URL := "A" } "d1" rfl rfl⟩,
    ⟨rfl,
      (NewFilter_always_errors downEnv 100 emptyApi "A" (some "q")).2.2.1
        (Error.external "dial failed") rfl⟩,
    ⟨rfl, rfl,
      (NewFilter_always_errors refusingEnv 100 emptyApi "A" (some "q")).2.2.2
        { Client := 7, URL := "A" } (Error.external "no delegate") rfl rfl⟩⟩

/-! ## The sweep `expireFilters` -/

/-- A value inside the int64 range is left alone by `wrap64`. -/
theorem wrap64_of_inRange (x : Int) (h1 : -2 ^ 63 ≤ x) (h2 : x < 2 ^ 63) : wrap64 x = x := by
  unfold wrap64
  omega

/-- Without int64 overflow the elapsed duration is the difference of the clock
readings, in nanoseconds. -/
theorem elapsed_of_inRange (now : Int) (f : Filter)
    (h1 : -2 ^ 63 ≤ (now - f.lastPollingTime) * Second)
    (h2 : (now - f.lastPollingTime) * Second < 2 ^ 63) :
    elapsed now f = (now - f.lastPollingTime) * Second := by
  unfold elapsed
  unfold Second at h1 h2
  rw [wrap64_of_inRange (now - f.lastPollingTime) (by omega) (by omega)]
  exact wrap64_of_inRange _ h1 h2

/-- Lookups in the two maps built by the loop of `expireFilters` over a list of
entries with distinct keys. -/
theorem foldl_expireStep_lookup (now ttl : Int) :
    ∀ (l : List (Sigma (fun _ : ID => Filter))), l.NodupKeys → ∀ (F E : Table) (id : ID),
      ((l.foldl (expireStep now ttl) (F, E)).1.lookup id
        = match l.dlookup id with
          | some f => if elapsed now f ≥ ttl then none else F.lookup id
          | none => F.lookup id)
      ∧ ((l.foldl (expireStep now ttl) (F, E)).2.lookup id
        = match l.dlookup id with
          | some f => if elapsed now f ≥ ttl then some f else E.lookup id
          | none => E.lookup id) := by
  intro l
  induction l with
  | nil => intro _ F E id; exact ⟨rfl, rfl⟩
  | cons e l ih =>
    intro hnd F E id
    obtain ⟨hk, hl⟩ := List.nodupKeys_cons.mp hnd
    obtain ⟨k, f⟩ := e
    rw [List.foldl_cons]
    have ih1 := ih hl (expireStep now ttl (F, E) ⟨k, f⟩).1 (expireStep now ttl (F, E) ⟨k, f⟩).2 id
    rw [Prod.mk.eta] at ih1
    rw [ih1.1, ih1.2]
    by_cases hid : id = k
    · subst hid
      have hnone : List.dlookup id l = none := List.dlookup_eq_none.mpr hk
      rw [hnone, List.dlookup_cons_eq]
      unfold expireStep
      by_cases hexp : elapsed now f ≥ ttl
      · simp [hexp]
      · simp [hexp]
    · rw [List.dlookup_cons_ne l ⟨k, f⟩ hid]
      unfold expireStep
      by_cases hexp : elapsed now f ≥ ttl
      · simp [hexp, AList.lookup_erase_ne hid, AList.lookup_insert_ne hid]
      · simp [hexp]

/-- Lookup in the map returned by `expireFilters`. -/
theorem expireFilters_lookup_expired (now ttl : Int) (api : FilterApi) (id : ID) :
    (expireFilters now ttl api).1.lookup id
      = match getFilter api id with
        | some f => if elapsed now f ≥ ttl then some f else none
        | none => none := by
  have h := (foldl_expireStep_lookup now ttl api.filters.entries api.filters.nodupKeys
    api.filters ∅ id).2
  simpa [expireFilters, getFilter, AList.lookup] using h

/-- Lookup in the table left by `expireFilters`. -/
theorem expireFilters_lookup_remaining (now ttl : Int) (api : FilterApi) (id : ID) :
    getFilter (expireFilters now ttl api).2 id
      = match getFilter api id with
        | some f => if elapsed now f ≥ ttl then none else some f
        | none => none := by
  have h := (foldl_expireStep_lookup now ttl api.filters.entries api.filters.nodupKeys
    api.filters ∅ id).1
  unfold expireFilters getFilter
  simp only
  rw [h]
  unfold AList.lookup
  cases List.dlookup id api.filters.entries <;> rfl

/-- Without int64 overflow on the records of the table, the elapsed duration of
a present record is exact. -/
theorem elapsed_of_getFilter (now : Int) (api : FilterApi)
    (hno : ∀ e ∈ api.filters.entries,
      -2 ^ 63 ≤ (now - e.2.lastPollingTime) * Second
        ∧ (now - e.2.lastPollingTime) * Second < 2 ^ 63)
    (id : ID) (f : Filter) (hf : getFilter api id = some f) :
    elapsed now f = (now - f.lastPollingTime) * Second := by
  have hmem : (⟨id, f⟩ : Sigma (fun _ : ID => Filter)) ∈ api.filters.entries :=
    AList.mem_lookup_iff.mp hf
  exact elapsed_of_inRange now f (hno _ hmem).1 (hno _ hmem).2

/-- C8: with `now` the clock reading in Unix seconds and no int64 overflow in
converting `now - lastPollingTime` of any record to a duration,
`expireFilters ttl` returns exactly the entries whose elapsed duration is at
least `ttl`, the table afterwards holds exactly the entries whose elapsed
duration is below `ttl`, every record is the one it was before, the returned
map and the remaining table are disjoint and their union is the table before
the call. No collaborator is called and the client cache is untouched. -/
theorem expireFilters_partition (now ttl : Int) (api : FilterApi)
    (hno : ∀ e ∈ api.filters.entries,
      -2 ^ 63 ≤ (now - e.2.lastPollingTime) * Second
        ∧ (now - e.2.lastPollingTime) * Second < 2 ^ 63) :
    (∀ id f, (expireFilters now ttl api).1.lookup id = some f ↔
        getFilter api id = some f ∧ (now - f.lastPollingTime) * Second ≥ ttl)
    ∧ (∀ id f, getFilter (expireFilters now ttl api).2 id = some f ↔
        getFilter api id = some f ∧ (now - f.lastPollingTime) * Second < ttl)
    ∧ AList.Disjoint (expireFilters now ttl api).1 (expireFilters now ttl api).2.filters
    ∧ (∀ id, ((expireFilters now ttl api).1 ∪ (expireFilters now ttl api).2.filters).lookup id
        = getFilter api id)
    ∧ (expireFilters now ttl api).2.calls = api.calls
    ∧ (expireFilters now ttl api).2.clients = api.clients := by
  have hel := elapsed_of_getFilter now api hno
  have hexp : ∀ id f, (expireFilters now ttl api).1.lookup id = some f ↔
      getFilter api id = some f ∧ (now - f.lastPollingTime) * Second ≥ ttl := by
    intro id f
    rw [expireFilters_lookup_expired]
    cases hg : getFilter api id with
    | none => simp
    | some g =>
      have hgel := hel id g hg
      by_cases hc : elapsed now g ≥ ttl
      · simp only [hc, if_true, Option.some.injEq]
        constructor
        · rintro rfl; exact ⟨rfl, hgel ▸ hc⟩
        · rintro ⟨h1, _⟩; exact h1
      · simp only [hc, if_false]
        constructor
        · intro h; cases h
        · rintro ⟨h1, h2⟩; cases h1; exact absurd (hgel ▸ h2) hc
  have hrem : ∀ id f, getFilter (expireFilters now ttl api).2 id = some f ↔
      getFilter api id = some f ∧ (now - f.lastPollingTime) * Second < ttl := by
    intro id f
    rw [expireFilters_lookup_remaining]
    cases hg : getFilter api id with
    | none => simp
    | some g =>
      have hgel := hel id g hg
      by_cases hc : elapsed now g ≥ ttl
      · simp only [hc, if_true]
        constructor
        · intro h; cases h
        · rintro ⟨h1, h2⟩; cases h1; rw [hgel] at hc; omega
      · simp only [hc, if_false, Option.some.injEq]
        constructor
        · rintro rfl; rw [hgel] at hc; exact ⟨rfl, by omega⟩
        · rintro ⟨h1, _⟩; exact h1
  refine ⟨hexp, hrem, ?_, ?_, rfl, rfl⟩
  · intro k hk1 hk2
    obtain ⟨f1, hf1⟩ := Option.isSome_iff_exists.mp (AList.lookup_isSome.mpr (AList.mem_keys.mpr hk1))
    obtain ⟨f2, hf2⟩ := Option.isSome_iff_exists.mp (AList.lookup_isSome.mpr (AList.mem_keys.mpr hk2))
    have h1 := (hexp k f1).mp hf1
    have h2 := (hrem k f2).mp hf2
    have : f1 = f2 := Option.some.inj (h1.1.symm.trans h2.1)
    subst this
    omega
  · intro id
    by_cases hm : id ∈ (expireFilters now ttl api).1
    · rw [AList.lookup_union_left hm]
      obtain ⟨f1, hf1⟩ := Option.isSome_iff_exists.mp (AList.lookup_isSome.mpr hm)
      rw [hf1, ((hexp id f1).mp hf1).1]
    · rw [AList.lookup_union_right hm]
      have hnone : (expireFilters now ttl api).1.lookup id = none := AList.lookup_eq_none.mpr hm
      cases hg : getFilter api id with
      | none =>
        cases hr : AList.lookup id (expireFilters now ttl api).2.filters with
        | none => rfl
        | some f => exact absurd ((hrem id f).mp hr).1 (by simp [hg])
      | some g =>
        have hlt : (now - g.lastPollingTime) * Second < ttl := by
          by_contra hcon
          have := (hexp id g).mpr ⟨hg, by omega⟩
          rw [hnone] at this
          cases this
        exact (hrem id g).mpr ⟨hg, hlt⟩

/-- Witness of C8: at clock reading 110 with a ttl of ten seconds, `"h1"`
(polled at 100) expires and `"h3"` (polled at 108) stays. -/
theorem expireFilters_partition_witness :
    (∀ e ∈ apiWithTwo.filters.entries,
      -2 ^ 63 ≤ (110 - e.2.lastPollingTime) * Second
        ∧ (110 - e.2.lastPollingTime) * Second < 2 ^ 63)
    ∧ (expireFilters 110 (10 * Second) apiWithTwo).1.lookup "h1" = some blockOnA
    ∧ getFilter (expireFilters 110 (10 * Second) apiWithTwo).2 "h3" = some pendingOnA
    ∧ (∀ id f, (expireFilters 110 (10 * Second) apiWithTwo).1.lookup id = some f ↔
        getFilter apiWithTwo id = some f ∧ (110 - f.lastPollingTime) * Second ≥ 10 * Second)
    ∧ (∀ id f, getFilter (expireFilters 110 (10 * Second) apiWithTwo).2 id = some f ↔
        getFilter apiWithTwo id = some f ∧ (110 - f.lastPollingTime) * Second < 10 * Second)
    ∧ AList.Disjoint (expireFilters 110 (10 * Second) apiWithTwo).1
        (expireFilters 110 (10 * Second) apiWithTwo).2.filters
    ∧ (∀ id, ((expireFilters 110 (10 * Second) apiWithTwo).1
          ∪ (expireFilters 110 (10 * Second) apiWithTwo).2.filters).lookup id
        = getFilter apiWithTwo id)
    ∧ (expireFilters 110 (10 * Second) apiWithTwo).2.calls = apiWithTwo.calls
    ∧ (expireFilters 110 (10 * Second) apiWithTwo).2.clients = apiWithTwo.clients :=
  ⟨by decide, by decide, by decide,
    expireFilters_partition 110 (10 * Second) apiWithTwo (by decide)⟩

/-! ## Expiry and the granularity of the clock -/

/-- Lookup of the refreshed handle after `refreshFilterPollingTime`. -/
theorem getFilter_refresh_self (now : Int) (api : FilterApi) (id : ID) (f : Filter)
    (hf : getFilter api id = some f) :
    getFilter (refreshFilterPollingTime now api id) id
      = some { f with lastPollingTime := now } := by
  unfold getFilter at hf
  simp [refreshFilterPollingTime, getFilter, hf]

/-- C9 (counterexample): with a ttl of 10 s, a filter refreshed at 1.9 s is
removed by a sweep at 11.0 s, only 9.1 s after the access; and with a ttl of
1.5 s, a filter refreshed at 0 s survives a sweep at 1.9 s, although it was
untouched for more than the ttl. -/
theorem sweep_ignores_sub_second_part :
    (0 : Int) < 10 * Second
    ∧ (1900000000 : Int) ≤ 11000000000
    ∧ getFilter (expireFilters (Unix 11000000000) (10 * Second)
        (refreshFilterPollingTime (Unix 1900000000) apiWithBlock "h1")).2 "h1" = none
    ∧ ¬ ((11000000000 : Int) - 1900000000 ≥ 10 * Second)
    ∧ (0 : Int) < 1500000000
    ∧ (0 : Int) ≤ 1900000000
    ∧ getFilter (expireFilters (Unix 1900000000) 1500000000
        (refreshFilterPollingTime (Unix 0) apiWithBlock "h1")).2 "h1"
        = some { blockOnA with lastPollingTime := 0 }
    ∧ (1900000000 : Int) - 0 ≥ 1500000000 := by
  decide

/-- C9 (amended): instants are nanoseconds since the epoch. For every ttl, a
filter refreshed at instant `tAccess` and swept at an instant
`tSweep ≥ tAccess`, without int64 overflow, is removed by the sweep if and only
if the difference of the two clock readings in whole Unix seconds is at least
`ttl`. Hence a filter untouched for at least `ttl` plus one second is removed
(and returned as expired), and a filter accessed at most `ttl` minus one second
ago is kept. -/
theorem sweep_removes_iff_whole_seconds (ttl tAccess tSweep : Int) (api : FilterApi) (h : ID)
    (f : Filter) (hf : getFilter api h = some f) (hle : tAccess ≤ tSweep)
    (hno : (Unix tSweep - Unix tAccess) * Second < 2 ^ 63) :
    (getFilter (expireFilters (Unix tSweep) ttl
        (refreshFilterPollingTime (Unix tAccess) api h)).2 h = none
      ↔ (Unix tSweep - Unix tAccess) * Second ≥ ttl)
    ∧ (tSweep - tAccess ≥ ttl + Second →
        getFilter (expireFilters (Unix tSweep) ttl
          (refreshFilterPollingTime (Unix tAccess) api h)).2 h = none
        ∧ (expireFilters (Unix tSweep) ttl
            (refreshFilterPollingTime (Unix tAccess) api h)).1.lookup h
            = some { f with lastPollingTime := Unix tAccess })
    ∧ (tSweep - tAccess ≤ ttl - Second →
        getFilter (expireFilters (Unix tSweep) ttl
          (refreshFilterPollingTime (Unix tAccess) api h)).2 h
          = some { f with lastPollingTime := Unix tAccess }) := by
  have hr := getFilter_refresh_self (Unix tAccess) api h f hf
  have hel : elapsed (Unix tSweep) { f with lastPollingTime := Unix tAccess }
      = (Unix tSweep - Unix tAccess) * Second := by
    apply elapsed_of_inRange
    · show -2 ^ 63 ≤ (Unix tSweep - Unix tAccess) * Second
      unfold Unix Second
      omega
    · exact hno
  rw [expireFilters_lookup_remaining, expireFilters_lookup_expired, hr]
  simp only [hel]
  unfold Unix Second at *
  refine ⟨?_, ?_, ?_⟩
  · by_cases hc : (tSweep / 1000000000 - tAccess / 1000000000) * 1000000000 ≥ ttl
    · simp [hc]
    · simp [hc]
  · intro hge
    have hc : (tSweep / 1000000000 - tAccess / 1000000000) * 1000000000 ≥ ttl := by omega
    simp [hc]
  · intro hlt
    have hc : ¬ (tSweep / 1000000000 - tAccess / 1000000000) * 1000000000 ≥ ttl := by omega
    simp [hc]

/-- Witness of the amended C9: ttl 10 s, access at 1.9 s, sweep at 13.0 s. -/
theorem sweep_removes_iff_whole_seconds_witness :
    getFilter apiWithBlock "h1" = some blockOnA
    ∧ (1900000000 : Int) ≤ 13000000000
    ∧ (Unix 13000000000 - Unix 1900000000) * Second < 2 ^ 63
    ∧ (getFilter (expireFilters (Unix 13000000000) (10 * Second)
          (refreshFilterPollingTime (Unix 1900000000) apiWithBlock "h1")).2 "h1" = none
        ↔ (Unix 13000000000 - Unix 1900000000) * Second ≥ 10 * Second)
    ∧ ((13000000000 : Int) - 1900000000 ≥ 10 * Second + Second →
        getFilter (expireFilters (Unix 13000000000) (10 * Second)
          (refreshFilterPollingTime (Unix 1900000000) apiWithBlock "h1")).2 "h1" = none
        ∧ (expireFilters (Unix 13000000000) (10 * Second)
            (refreshFilterPollingTime (Unix 1900000000) apiWithBlock "h1")).1.lookup "h1"
            = some { blockOnA with lastPollingTime := Unix 1900000000 })
    ∧ ((13000000000 : Int) - 1900000000 ≤ 10 * Second - Second →
        getFilter (expireFilters (Unix 13000000000) (10 * Second)
          (refreshFilterPollingTime (Unix 1900000000) apiWithBlock "h1")).2 "h1"
          = some { blockOnA with lastPollingTime := Unix 1900000000 }) :=
  ⟨by decide, by decide, by decide,
    sweep_removes_iff_whole_seconds (10 * Second) 1900000000 13000000000 apiWithBlock "h1"
      blockOnA (by decide) (by decide) (by decide)⟩

/-! ## Upstream errors on `GetFilterChanges` -/

/-- C10: for a handle `h` whose record `f` is of kind block or pending
transaction, polled through its delegate node with node resolution succeeding
(client `w3c`), `GetFilterChanges` calls the node client once with the record's
upstream id and returns that call's result and error unmodified. If the
returned error is recognised by `IsFilterNotFoundError`, `h` is removed from
the table and every following `GetFilterChanges` on `h` returns
`errFilterNotFound` and changes nothing (no collaborator call). Otherwise `h`
remains in the table, with its polling time refreshed. -/
theorem GetFilterChanges_upstream_error (env : Env) (now : Int) (api : FilterApi)
    (nodeUrl : String) (h : ID) (f : Filter) (w3c : Web3goClient)
    (hf : getFilter api h = some f)
    (hk : f.typ = FilterType.FilterTypeBlock ∨ f.typ = FilterType.FilterTypePendingTxn)
    (hA : f.IsDelegateFullNode env nodeUrl = true)
    (hres : (loadOrGetFnClient env (refreshFilterPollingTime now api h) nodeUrl).1 = .ok w3c) :
    (GetFilterChanges env now api nodeUrl h).2.calls
      = (loadOrGetFnClient env (refreshFilterPollingTime now api h) nodeUrl).2.calls
          ++ [Call.GetFilterChanges w3c f.del.fid]
    ∧ (GetFilterChanges env now api nodeUrl h).1
      = env.GetFilterChanges
          (loadOrGetFnClient env (refreshFilterPollingTime now api h) nodeUrl).2.calls
          w3c f.del.fid
    ∧ (env.IsFilterNotFoundError (env.GetFilterChanges
          (loadOrGetFnClient env (refreshFilterPollingTime now api h) nodeUrl).2.calls
          w3c f.del.fid).2 = true →
        getFilter (GetFilterChanges env now api nodeUrl h).2 h = none
        ∧ ∀ (now' : Int) (nodeUrl' : String),
            GetFilterChanges env now' (GetFilterChanges env now api nodeUrl h).2 nodeUrl' h
              = ((Value.nil, some Error.errFilterNotFound),
                  (GetFilterChanges env now api nodeUrl h).2))
    ∧ (env.IsFilterNotFoundError (env.GetFilterChanges
          (loadOrGetFnClient env (refreshFilterPollingTime now api h) nodeUrl).2.calls
          w3c f.del.fid).2 = false →
        getFilter (GetFilterChanges env now api nodeUrl h).2 h
          = some { f with lastPollingTime := now }) := by
  have hlog : f.typ ≠ FilterType.FilterTypeLog := by
    rcases hk with hk | hk <;> simp [hk]
  have hfl := loadOrGetFnClient_filters env (refreshFilterPollingTime now api h) nodeUrl
  have hrf := getFilter_refresh_self now api h f hf
  rcases hr : loadOrGetFnClient env (refreshFilterPollingTime now api h) nodeUrl with ⟨r, api2⟩
  rw [hr] at hres hfl
  simp only at hres hfl
  subst hres
  have hg2 : getFilter api2 h = some { f with lastPollingTime := now } := by
    unfold getFilter at hrf ⊢
    rw [hfl]
    exact hrf
  by_cases hnf : env.IsFilterNotFoundError (env.GetFilterChanges api2.calls w3c f.del.fid).2 = true
  · have hval : GetFilterChanges env now api nodeUrl h
        = (env.GetFilterChanges api2.calls w3c f.del.fid,
            (delFilter (api2.record (Call.GetFilterChanges w3c f.del.fid)) h).2) := by
      simp [GetFilterChanges, hf, hA, hr, hlog, clientGetFilterChanges, hnf]
    rw [hval]
    refine ⟨by simp, rfl, ?_, ?_⟩
    · intro _
      refine ⟨by simp, ?_⟩
      intro now' nodeUrl'
      exact GetFilterChanges_absent env now' _ nodeUrl' h (by simp)
    · intro hc
      rw [hnf] at hc
      cases hc
  · have hval : GetFilterChanges env now api nodeUrl h
        = (env.GetFilterChanges api2.calls w3c f.del.fid,
            api2.record (Call.GetFilterChanges w3c f.del.fid)) := by
      simp [GetFilterChanges, hf, hA, hr, hlog, clientGetFilterChanges, hnf]
    rw [hval]
    refine ⟨by simp, rfl, ?_, ?_⟩
    · intro hc
      exact absurd hc hnf
    · intro _
      exact hg2

/-- Witness of C10: the block filter `"h1"` polled through node `"A"`, once
against a node client answering "filter not found" and once against a node
client answering "timeout". -/
theorem GetFilterChanges_upstream_error_witness :
    (getFilter apiWithBlock "h1" = some blockOnA
      ∧ (blockOnA.typ = FilterType.FilterTypeBlock
          ∨ blockOnA.typ = FilterType.FilterTypePendingTxn)
      ∧ blockOnA.IsDelegateFullNode goneEnv "A" = true
      ∧ (loadOrGetFnClient goneEnv (refreshFilterPollingTime 105 apiWithBlock "h1") "A").1
          = .ok { Client := 7, URL := "A" }
      ∧ goneEnv.IsFilterNotFoundError (goneEnv.GetFilterChanges
          (loadOrGetFnClient goneEnv (refreshFilterPollingTime 105 apiWithBlock "h1") "A").2.calls
          { Client := 7, URL := "A" } blockOnA.del.fid).2 = true
      ∧ (GetFilterChanges goneEnv 105 apiWithBlock "A" "h1").1
          = (Value.nil, some (Error.external "filter not found"))
      ∧ getFilter (GetFilterChanges goneEnv 105 apiWithBlock "A" "h1").2 "h1" = none
      ∧ ∀ (now' : Int) (nodeUrl' : String),
          GetFilterChanges goneEnv now' (GetFilterChanges goneEnv 105 apiWithBlock "A" "h1").2
              nodeUrl' "h1"
            = ((Value.nil, some Error.errFilterNotFound),
                (GetFilterChanges goneEnv 105 apiWithBlock "A" "h1").2))
    ∧ (blockOnA.IsDelegateFullNode flakyEnv "A" = true
      ∧ (loadOrGetFnClient flakyEnv (refreshFilterPollingTime 105 apiWithBlock "h1") "A").1
          = .ok { Client := 7, URL := "A" }
      ∧ flakyEnv.IsFilterNotFoundError (flakyEnv.GetFilterChanges
          (loadOrGetFnClient flakyEnv (refreshFilterPollingTime 105 apiWithBlock "h1") "A").2.calls
          { Client := 7, URL := "A" } blockOnA.del.fid).2 = false
      ∧ (GetFilterChanges flakyEnv 105 apiWithBlock "A" "h1").1
          = (Value.nil, some (Error.external "timeout"))
      ∧ getFilter (GetFilterChanges flakyEnv 105 apiWithBlock "A" "h1").2 "h1"
          = some { blockOnA with lastPollingTime := 105 }) :=
  ⟨⟨by decide, by decide, by decide, rfl, by decide,
      (GetFilterChanges_upstream_error goneEnv 105 apiWithBlock "A" "h1" blockOnA
        { Client := 7, URL := "A" } (by decide) (by decide) (by decide) rfl).2.1,
      (GetFilterChanges_upstream_error goneEnv 105 apiWithBlock "A" "h1" blockOnA
        { Client := 7, URL := "A" } (by decide) (by decide) (by decide) rfl).2.2.1
        (by decide)⟩,
    ⟨by decide, rfl, by decide,
      (GetFilterChanges_upstream_error flakyEnv 105 apiWithBlock "A" "h1" blockOnA
        { Client := 7, URL := "A" } (by decide) (by decide) (by decide) rfl).2.1,
      (GetFilterChanges_upstream_error flakyEnv 105 apiWithBlock "A" "h1" blockOnA
        { Client := 7, URL := "A" } (by decide) (by decide) (by decide) rfl).2.2.2
        (by decide)⟩⟩

/-! ## The polling time on failed polls -/

/-- Lookup of another handle after `refreshFilterPollingTime`. -/
theorem getFilter_refresh_ne (now : Int) (api : FilterApi) (id id' : ID) (hne : id' ≠ id) :
    getFilter (refreshFilterPollingTime now api id) id' = getFilter api id' := by
  unfold refreshFilterPollingTime getFilter
  cases hl : AList.lookup id api.filters with
  | none => rfl
  | some f => exact AList.lookup_insert_ne hne

/-- C11 (counterexample): the block filter `"h1"`, last polled at 100, is polled
at 105 through its own node. When the node client answers with the transient
error "timeout", and likewise when the connection cannot be built, the error is
returned and the table differs from the table before the call: the polling time
of `"h1"` is now 105. -/
theorem GetFilterChanges_failure_changes_polling_time :
    getFilter apiWithBlock "h1" = some blockOnA
    ∧ blockOnA.IsDelegateFullNode flakyEnv "A" = true
    ∧ (GetFilterChanges flakyEnv 105 apiWithBlock "A" "h1").1
        = (Value.nil, some (Error.external "timeout"))
    ∧ flakyEnv.IsFilterNotFoundError (some (Error.external "timeout")) = false
    ∧ (GetFilterChanges flakyEnv 105 apiWithBlock "A" "h1").2.filters ≠ apiWithBlock.filters
    ∧ getFilter (GetFilterChanges flakyEnv 105 apiWithBlock "A" "h1").2 "h1"
        = some { blockOnA with lastPollingTime := 105 }
    ∧ (GetFilterChanges downEnv 105 apiWithBlock "A" "h1").1
        = (Value.nil, some (Error.external "dial failed"))
    ∧ (GetFilterChanges downEnv 105 apiWithBlock "A" "h1").2.filters ≠ apiWithBlock.filters
    ∧ getFilter (GetFilterChanges downEnv 105 apiWithBlock "A" "h1").2 "h1"
        = some { blockOnA with lastPollingTime := 105 } := by
  refine ⟨by decide, by decide, by decide, by decide, ?_, by decide, by decide, ?_, by decide⟩
  · intro heq
    have hl := congrArg (fun t => AList.lookup "h1" t) heq
    revert hl
    decide
  · intro heq
    have hl := congrArg (fun t => AList.lookup "h1" t) heq
    revert hl
    decide

/-- C11 (amended): `GetFilterChanges` refreshes the polling time before it
resolves the node and calls anybody. For a handle `h` present with record `f`
and polled through its delegate node, `refreshFilterPollingTime` sets the
polling time of `h` to `now` and leaves every other handle alone; and if node
resolution fails, or the record is of kind log (whatever the Filter System
answers), or the node client answers with a result whose error is not
recognised as "filter not found", the call returns that outcome and the table
after the call is the refreshed table. -/
theorem GetFilterChanges_failure_keeps_refreshed_table (env : Env) (now : Int)
    (api : FilterApi) (nodeUrl : String) (h : ID) (f : Filter)
    (hf : getFilter api h = some f)
    (hA : f.IsDelegateFullNode env nodeUrl = true) :
    (getFilter (refreshFilterPollingTime now api h) h = some { f with lastPollingTime := now }
      ∧ ∀ h', h' ≠ h → getFilter (refreshFilterPollingTime now api h) h' = getFilter api h')
    ∧ (∀ err, (loadOrGetFnClient env (refreshFilterPollingTime now api h) nodeUrl).1
          = .error err →
        (GetFilterChanges env now api nodeUrl h).1 = (Value.nil, some err)
        ∧ (GetFilterChanges env now api nodeUrl h).2.filters
            = (refreshFilterPollingTime now api h).filters)
    ∧ (∀ w3c, (loadOrGetFnClient env (refreshFilterPollingTime now api h) nodeUrl).1
          = .ok w3c →
        f.typ = FilterType.FilterTypeLog →
        (GetFilterChanges env now api nodeUrl h).1
            = env.GetFilterLogs
                (loadOrGetFnClient env (refreshFilterPollingTime now api h) nodeUrl).2.calls
                w3c f.crit
        ∧ (GetFilterChanges env now api nodeUrl h).2.filters
            = (refreshFilterPollingTime now api h).filters)
    ∧ (∀ w3c, (loadOrGetFnClient env (refreshFilterPollingTime now api h) nodeUrl).1
          = .ok w3c →
        f.typ ≠ FilterType.FilterTypeLog →
        env.IsFilterNotFoundError (env.GetFilterChanges
          (loadOrGetFnClient env (refreshFilterPollingTime now api h) nodeUrl).2.calls
          w3c f.del.fid).2 = false →
        (GetFilterChanges env now api nodeUrl h).1
            = env.GetFilterChanges
                (loadOrGetFnClient env (refreshFilterPollingTime now api h) nodeUrl).2.calls
                w3c f.del.fid
        ∧ (GetFilterChanges env now api nodeUrl h).2.filters
            = (refreshFilterPollingTime now api h).filters) := by
  have hfl := loadOrGetFnClient_filters env (refreshFilterPollingTime now api h) nodeUrl
  refine ⟨⟨getFilter_refresh_self now api h f hf,
    fun h' hne => getFilter_refresh_ne now api h h' hne⟩, ?_, ?_, ?_⟩
  · intro err hres
    rcases hr : loadOrGetFnClient env (refreshFilterPollingTime now api h) nodeUrl with ⟨r, api2⟩
    rw [hr] at hres hfl
    simp only at hres hfl
    subst hres
    have hval : GetFilterChanges env now api nodeUrl h = ((Value.nil, some err), api2) := by
      simp [GetFilterChanges, hf, hA, hr]
    rw [hval]
    exact ⟨rfl, hfl⟩
  · intro w3c hres hlog
    rcases hr : loadOrGetFnClient env (refreshFilterPollingTime now api h) nodeUrl with ⟨r, api2⟩
    rw [hr] at hres hfl
    simp only at hres hfl
    subst hres
    have hval : GetFilterChanges env now api nodeUrl h
        = sysGetFilterLogs env api2 w3c f.crit := by
      simp [GetFilterChanges, hf, hA, hr, hlog]
    rw [hval]
    exact ⟨rfl, hfl⟩
  · intro w3c hres hlog hnf
    rcases hr : loadOrGetFnClient env (refreshFilterPollingTime now api h) nodeUrl with ⟨r, api2⟩
    rw [hr] at hres hfl hnf
    simp only at hres hfl hnf
    subst hres
    have hval : GetFilterChanges env now api nodeUrl h
        = clientGetFilterChanges env api2 w3c f.del.fid := by
      simp [GetFilterChanges, hf, hA, hr, hlog, clientGetFilterChanges, hnf]
    rw [hval]
    exact ⟨rfl, hfl⟩

/-- Witness of the amended C11: the block filter `"h1"` polled at 105 through
node `"A"`, with a failing connection and with a node client answering
"timeout". -/
theorem GetFilterChanges_failure_keeps_refreshed_table_witness :
    getFilter apiWithBlock "h1" = some blockOnA
    ∧ blockOnA.IsDelegateFullNode downEnv "A" = true
    ∧ blockOnA.IsDelegateFullNode flakyEnv "A" = true
    ∧ ((loadOrGetFnClient downEnv (refreshFilterPollingTime 105 apiWithBlock "h1") "A").1
          = .error (Error.external "dial failed")
      ∧ (GetFilterChanges downEnv 105 apiWithBlock "A" "h1").1
          = (Value.nil, some (Error.external "dial failed"))
      ∧ (GetFilterChanges downEnv 105 apiWithBlock "A" "h1").2.filters
          = (refreshFilterPollingTime 105 apiWithBlock "h1").filters)
    ∧ ((loadOrGetFnClient flakyEnv (refreshFilterPollingTime 105 apiWithBlock "h1") "A").1
          = .ok { Client := 7, URL := "A" }
      ∧ blockOnA.typ ≠ FilterType.FilterTypeLog
      ∧ flakyEnv.IsFilterNotFoundError (flakyEnv.GetFilterChanges
          (loadOrGetFnClient flakyEnv (refreshFilterPollingTime 105 apiWithBlock "h1") "A").2.calls
          { Client := 7, URL := "A" } blockOnA.del.fid).2 = false
      ∧ (GetFilterChanges flakyEnv 105 apiWithBlock "A" "h1").1
          = (Value.nil, some (Error.external "timeout"))
      ∧ (GetFilterChanges flakyEnv 105 apiWithBlock "A" "h1").2.filters
          = (refreshFilterPollingTime 105 apiWithBlock "h1").filters) :=
  ⟨by decide, by decide, by decide,
    ⟨rfl,
      (GetFilterChanges_failure_keeps_refreshed_table downEnv 105 apiWithBlock "A" "h1"
        blockOnA (by decide) (by decide)).2.1 (Error.external "dial failed") rfl⟩,
    ⟨rfl, by decide, by decide,
      (GetFilterChanges_failure_keeps_refreshed_table flakyEnv 105 apiWithBlock "A" "h1"
        blockOnA (by decide) (by decide)).2.2.2 { Client := 7, URL := "A" } rfl (by decide)
        (by decide)⟩⟩

/-! ## `GetFilterLogs` -/

/-- C12: `GetFilterLogs` returns nil logs with `errFilterNotFound`, leaving the
whole state unchanged, when the handle is absent or its record is not of kind
log. For a record of kind log polled through another node it returns nil logs
with `errFilterNotFound`, removes the record (other handles are untouched) and
requests the Filter System's uninstall exactly once, as its only call. For a
record of kind log polled through its delegate node it resolves the node
client; if that fails the failure is returned, otherwise the Filter System's
`GetLogs` is called once with the stored criteria, its result is returned and
the table is unchanged. -/
theorem GetFilterLogs_cases (env : Env) (api : FilterApi) (nodeUrl : String) (h : ID) :
    (getFilter api h = none →
      GetFilterLogs env api nodeUrl h = (([], some Error.errFilterNotFound), api))
    ∧ (∀ f, getFilter api h = some f → f.typ ≠ FilterType.FilterTypeLog →
        GetFilterLogs env api nodeUrl h = (([], some Error.errFilterNotFound), api))
    ∧ (∀ f, getFilter api h = some f → f.typ = FilterType.FilterTypeLog →
        f.IsDelegateFullNode env nodeUrl = false →
          (GetFilterLogs env api nodeUrl h).1 = ([], some Error.errFilterNotFound)
          ∧ getFilter (GetFilterLogs env api nodeUrl h).2 h = none
          ∧ (∀ h', h' ≠ h →
              getFilter (GetFilterLogs env api nodeUrl h).2 h' = getFilter api h')
          ∧ (GetFilterLogs env api nodeUrl h).2.calls
              = api.calls ++ [Call.delegateUninstallFilter h]
          ∧ (GetFilterLogs env api nodeUrl h).2.clients = api.clients)
    ∧ (∀ f, getFilter api h = some f → f.typ = FilterType.FilterTypeLog →
        f.IsDelegateFullNode env nodeUrl = true →
          (∀ err, (loadOrGetFnClient env api nodeUrl).1 = .error err →
            GetFilterLogs env api nodeUrl h
              = (([], some err), (loadOrGetFnClient env api nodeUrl).2))
          ∧ (∀ w3c, (loadOrGetFnClient env api nodeUrl).1 = .ok w3c →
              (GetFilterLogs env api nodeUrl h).1
                = env.GetLogs (loadOrGetFnClient env api nodeUrl).2.calls w3c f.crit
              ∧ (GetFilterLogs env api nodeUrl h).2.calls
                = (loadOrGetFnClient env api nodeUrl).2.calls ++ [Call.GetLogs w3c f.crit]
              ∧ (GetFilterLogs env api nodeUrl h).2.filters = api.filters)) := by
  refine ⟨?_, ?_, ?_, ?_⟩
  · intro hf
    simp [GetFilterLogs, hf]
  · intro f hf hk
    simp [GetFilterLogs, hf, hk]
  · intro f hf hk hB
    have hval : GetFilterLogs env api nodeUrl h
        = (([], some Error.errFilterNotFound),
            (delFilter api h).2.record (Call.delegateUninstallFilter h)) := by
      simp [GetFilterLogs, hf, hk, hB, sysDelegateUninstallFilter]
    rw [hval]
    refine ⟨rfl, ?_, ?_, by simp, by simp⟩
    · exact getFilter_delFilter_self api h
    · intro h' hne
      exact getFilter_delFilter_ne api h h' hne
  · intro f hf hk hA
    have hfl := loadOrGetFnClient_filters env api nodeUrl
    rcases hr : loadOrGetFnClient env api nodeUrl with ⟨r, api1⟩
    rw [hr] at hfl
    simp only at hfl
    constructor
    · intro err hres
      simp only at hres
      subst hres
      simp [GetFilterLogs, hf, hk, hA, hr]
    · intro w3c hres
      simp only at hres
      subst hres
      have hval : GetFilterLogs env api nodeUrl h = sysGetLogs env api1 w3c f.crit := by
        simp [GetFilterLogs, hf, hk, hA, hr]
      rw [hval]
      exact ⟨rfl, rfl, hfl⟩

/-- Witness of C12: an absent handle, the block filter `"h1"`, the log filter
`"h2"` through the foreign node `"B"`, and `"h2"` through its node `"A"` with a
failing and with a working connection. -/
theorem GetFilterLogs_cases_witness :
    (getFilter emptyApi "h1" = none
      ∧ GetFilterLogs sampleEnv emptyApi "A" "h1"
          = (([], some Error.errFilterNotFound), emptyApi))
    ∧ (getFilter apiWithBlock "h1" = some blockOnA
      ∧ blockOnA.typ ≠ FilterType.FilterTypeLog
      ∧ GetFilterLogs sampleEnv apiWithBlock "A" "h1"
          = (([], some Error.errFilterNotFound), apiWithBlock))
    ∧ (getFilter apiWithLogAndBlock "h2" = some logOnA
      ∧ logOnA.typ = FilterType.FilterTypeLog
      ∧ logOnA.IsDelegateFullNode sampleEnv "B" = false
      ∧ (GetFilterLogs sampleEnv apiWithLogAndBlock "B" "h2").1
          = ([], some Error.errFilterNotFound)
      ∧ getFilter (GetFilterLogs sampleEnv apiWithLogAndBlock "B" "h2").2 "h2" = none
      ∧ (∀ h', h' ≠ "h2" →
          getFilter (GetFilterLogs sampleEnv apiWithLogAndBlock "B" "h2").2 h'
            = getFilter apiWithLogAndBlock h')
      ∧ (GetFilterLogs sampleEnv apiWithLogAndBlock "B" "h2").2.calls
          = apiWithLogAndBlock.calls ++ [Call.delegateUninstallFilter "h2"]
      ∧ (GetFilterLogs sampleEnv apiWithLogAndBlock "B" "h2").2.clients
          = apiWithLogAndBlock.clients)
    ∧ (logOnA.IsDelegateFullNode downEnv "A" = true
      ∧ (loadOrGetFnClient downEnv apiWithLogAndBlock "A").1
          = .error (Error.external "dial failed")
      ∧ GetFilterLogs downEnv apiWithLogAndBlock "A" "h2"
          = (([], some (Error.external "dial failed")),
              (loadOrGetFnClient downEnv apiWithLogAndBlock "A").2))
    ∧ (logOnA.IsDelegateFullNode sampleEnv "A" = true
      ∧ (loadOrGetFnClient sampleEnv apiWithLogAndBlock "A").1
          = .ok { Client := 7, URL := "A" }
      ∧ (GetFilterLogs sampleEnv apiWithLogAndBlock "A" "h2").1
          = sampleEnv.GetLogs (loadOrGetFnClient sampleEnv apiWithLogAndBlock "A").2.calls
              { Client := 7, URL := "A" } logOnA.crit
      ∧ (GetFilterLogs sampleEnv apiWithLogAndBlock "A" "h2").2.calls
          = (loadOrGetFnClient sampleEnv apiWithLogAndBlock "A").2.calls
              ++ [Call.GetLogs { Client := 7, URL := "A" } logOnA.crit]
      ∧ (GetFilterLogs sampleEnv apiWithLogAndBlock "A" "h2").2.filters
          = apiWithLogAndBlock.filters) :=
  ⟨⟨by decide, (GetFilterLogs_cases sampleEnv emptyApi "A" "h1").1 (by decide)⟩,
    ⟨by decide, by decide,
      (GetFilterLogs_cases sampleEnv apiWithBlock "A" "h1").2.1 blockOnA (by decide)
        (by decide)⟩,
    ⟨by decide, by decide, by decide,
      (GetFilterLogs_cases sampleEnv apiWithLogAndBlock "B" "h2").2.2.1 logOnA (by decide)
        (by decide) (by decide)⟩,
    ⟨by decide, rfl,
      ((GetFilterLogs_cases downEnv apiWithLogAndBlock "A" "h2").2.2.2 logOnA (by decide)
        (by decide) (by decide)).1 (Error.external "dial failed") rfl⟩,
    ⟨by decide, rfl,
      ((GetFilterLogs_cases sampleEnv apiWithLogAndBlock "A" "h2").2.2.2 logOnA (by decide)
        (by decide) (by decide)).2 { Client := 7, URL := "A" } rfl⟩⟩

/-! ## The sweeper tick -/

/-- The uninstall loop of the tick leaves table and client cache alone and
appends one uninstall call per entry of kind log. -/
theorem foldl_uninstall (env : Env) :
    ∀ (l : List (Sigma (fun _ : ID => Filter))) (a : FilterApi),
      (l.foldl (fun a e =>
          if e.2.typ = FilterType.FilterTypeLog then (sysDelegateUninstallFilter env a e.1).2
          else a) a).filters = a.filters
      ∧ (l.foldl (fun a e =>
          if e.2.typ = FilterType.FilterTypeLog then (sysDelegateUninstallFilter env a e.1).2
          else a) a).clients = a.clients
      ∧ (l.foldl (fun a e =>
          if e.2.typ = FilterType.FilterTypeLog then (sysDelegateUninstallFilter env a e.1).2
          else a) a).calls
        = a.calls ++ (l.filter (fun e => e.2.typ = FilterType.FilterTypeLog)).map
            (fun e => Call.delegateUninstallFilter e.1) := by
  intro l
  induction l with
  | nil => intro a; simp
  | cons e l ih =>
    intro a
    rw [List.foldl_cons]
    by_cases hk : e.2.typ = FilterType.FilterTypeLog
    · obtain ⟨h1, h2, h3⟩ := ih (sysDelegateUninstallFilter env a e.1).2
      simp only [hk, if_true]
      rw [h1, h2, h3]
      simp [sysDelegateUninstallFilter, hk]
    · obtain ⟨h1, h2, h3⟩ := ih a
      simp only [hk, if_false]
      rw [h1, h2, h3]
      simp [hk]

/-- Number of uninstall calls for a handle among the calls made for a list of
entries with distinct keys. -/
theorem count_uninstall (id : ID) :
    ∀ (l : List (Sigma (fun _ : ID => Filter))), l.NodupKeys →
      ((l.filter (fun e => e.2.typ = FilterType.FilterTypeLog)).map
          (fun e => Call.delegateUninstallFilter e.1)).count (Call.delegateUninstallFilter id)
        = match l.dlookup id with
          | some f => if f.typ = FilterType.FilterTypeLog then 1 else 0
          | none => 0 := by
  intro l
  induction l with
  | nil => intro _; rfl
  | cons e l ih =>
    intro hnd
    obtain ⟨hk, hl⟩ := List.nodupKeys_cons.mp hnd
    obtain ⟨k, f⟩ := e
    have ih1 := ih hl
    by_cases hid : id = k
    · subst hid
      have hnone : List.dlookup id l = none := List.dlookup_eq_none.mpr hk
      rw [hnone] at ih1
      rw [List.dlookup_cons_eq]
      by_cases hlog : f.typ = FilterType.FilterTypeLog
      · simp [List.filter_cons, hlog, List.count_cons]
        simpa using ih1
      · simp [List.filter_cons, hlog]
        simpa using ih1
    · rw [List.dlookup_cons_ne l ⟨k, f⟩ hid, ← ih1]
      have hne : ¬ (k = id) := fun h => hid h.symm
      by_cases hlog : f.typ = FilterType.FilterTypeLog
      · simp [List.filter_cons, hlog, List.count_cons, hne]
      · simp [List.filter_cons, hlog]

/-- C13: one sweeper tick leaves the table exactly as `expireFilters` left it
and the client cache untouched, whatever the collaborators answer. The calls it
makes are the delegate uninstall calls of the expired records of kind log and
nothing else: a call belongs to them if and only if it is
`delegateUninstallFilter` for a handle whose expired record is of kind log, and
the uninstall for a handle is requested once if its expired record is of kind
log and never otherwise. -/
theorem timeoutTick_uninstalls_expired_logs (env : Env) (now ttl : Int) (api : FilterApi) :
    (timeoutTick env now ttl api).filters = (expireFilters now ttl api).2.filters
    ∧ (timeoutTick env now ttl api).clients = api.clients
    ∧ (timeoutTick env now ttl api).calls
        = api.calls ++ uninstallCalls (expireFilters now ttl api).1
    ∧ (∀ c, c ∈ uninstallCalls (expireFilters now ttl api).1 ↔
        ∃ id f, (expireFilters now ttl api).1.lookup id = some f
          ∧ f.typ = FilterType.FilterTypeLog ∧ c = Call.delegateUninstallFilter id)
    ∧ (∀ id, (uninstallCalls (expireFilters now ttl api).1).count
          (Call.delegateUninstallFilter id)
        = match (expireFilters now ttl api).1.lookup id with
          | some f => if f.typ = FilterType.FilterTypeLog then 1 else 0
          | none => 0) := by
  obtain ⟨h1, h2, h3⟩ :=
    foldl_uninstall env (expireFilters now ttl api).1.entries (expireFilters now ttl api).2
  refine ⟨h1, h2, h3, ?_, ?_⟩
  · intro c
    unfold uninstallCalls
    simp only [List.mem_map, List.mem_filter, decide_eq_true_eq]
    constructor
    · rintro ⟨⟨k, f⟩, ⟨hmem, hlog⟩, rfl⟩
      exact ⟨k, f, AList.mem_lookup_iff.mpr hmem, hlog, rfl⟩
    · rintro ⟨id, f, hl, hlog, rfl⟩
      exact ⟨⟨id, f⟩, ⟨AList.mem_lookup_iff.mp hl, hlog⟩, rfl⟩
  · intro id
    exact count_uninstall id (expireFilters now ttl api).1.entries
      (expireFilters now ttl api).1.nodupKeys

/-! ## Reachable states hold no log record -/

/-- The property depends on the table only. -/
theorem noLogRecord_of_filters_eq (api api' : FilterApi) (h : api'.filters = api.filters)
    (hn : noLogRecord api) : noLogRecord api' := by
  intro id f hf
  unfold getFilter at hf
  rw [h] at hf
  exact hn id f hf

/-- Removal keeps the table free of log records. -/
theorem noLogRecord_delFilter (api : FilterApi) (id : ID) (hn : noLogRecord api) :
    noLogRecord (delFilter api id).2 := by
  intro id' f hf
  by_cases hid : id' = id
  · subst hid
    rw [getFilter_delFilter_self] at hf
    cases hf
  · rw [getFilter_delFilter_ne api id id' hid] at hf
    exact hn id' f hf

/-- Insertion of a record that is not of kind log keeps the table free of log
records. -/
theorem noLogRecord_addFilter (api : FilterApi) (id : ID) (f : Filter)
    (hk : f.typ ≠ FilterType.FilterTypeLog) (hn : noLogRecord api) :
    noLogRecord (addFilter api id f) := by
  intro id' g hg
  unfold addFilter getFilter at hg
  by_cases hid : id' = id
  · subst hid
    rw [AList.lookup_insert] at hg
    cases hg
    exact hk
  · rw [AList.lookup_insert_ne hid] at hg
    exact hn id' g hg

/-- Refreshing a polling time keeps the table free of log records. -/
theorem noLogRecord_refresh (now : Int) (api : FilterApi) (id : ID) (hn : noLogRecord api) :
    noLogRecord (refreshFilterPollingTime now api id) := by
  intro id' g hg
  by_cases hid : id' = id
  · subst hid
    cases hf : getFilter api id' with
    | none =>
      have : refreshFilterPollingTime now api id' = api := by
        unfold getFilter at hf
        simp [refreshFilterPollingTime, hf]
      rw [this, hf] at hg
      cases hg
    | some f =>
      rw [getFilter_refresh_self now api id' f hf] at hg
      cases hg
      exact hn id' f hf
  · rw [getFilter_refresh_ne now api id id' hid] at hg
    exact hn id' g hg

/-- Client resolution keeps the table free of log records. -/
theorem noLogRecord_loadOrGetFnClient (env : Env) (api : FilterApi) (nodeUrl : String)
    (hn : noLogRecord api) : noLogRecord (loadOrGetFnClient env api nodeUrl).2 :=
  noLogRecord_of_filters_eq api _ (loadOrGetFnClient_filters env api nodeUrl) hn

/-- The sweep keeps the table free of log records. -/
theorem noLogRecord_expireFilters (now ttl : Int) (api : FilterApi) (hn : noLogRecord api) :
    noLogRecord (expireFilters now ttl api).2 := by
  intro id f hf
  rw [expireFilters_lookup_remaining] at hf
  cases hg : getFilter api id with
  | none => rw [hg] at hf; cases hf
  | some g =>
    rw [hg] at hf
    by_cases hc : elapsed now g ≥ ttl
    · simp [hc] at hf
    · simp [hc] at hf
      subst hf
      exact hn id g hg

/-- Creation of a block filter keeps the table free of log records. -/
theorem noLogRecord_NewBlockFilter (env : Env) (now : Int) (pfid : ID) (api : FilterApi)
    (nodeUrl : String) (hn : noLogRecord api) :
    noLogRecord (NewBlockFilter env now pfid api nodeUrl).2 := by
  have h1 := noLogRecord_loadOrGetFnClient env api nodeUrl hn
  unfold NewBlockFilter
  rcases hr : loadOrGetFnClient env api nodeUrl with ⟨r, api1⟩
  rw [hr] at h1
  cases r with
  | error err => exact h1
  | ok client =>
    simp only [clientNewBlockFilter]
    cases env.NewBlockFilter api1.calls client with
    | error err => exact noLogRecord_of_filters_eq api1 _ rfl h1
    | ok fid =>
      exact noLogRecord_addFilter _ pfid _ (by simp [newFilter])
        (noLogRecord_of_filters_eq api1 _ rfl h1)

/-- Creation of a pending transaction filter keeps the table free of log
records. -/
theorem noLogRecord_NewPendingTransactionFilter (env : Env) (now : Int) (pfid : ID)
    (api : FilterApi) (nodeUrl : String) (hn : noLogRecord api) :
    noLogRecord (NewPendingTransactionFilter env now pfid api nodeUrl).2 := by
  have h1 := noLogRecord_loadOrGetFnClient env api nodeUrl hn
  unfold NewPendingTransactionFilter
  rcases hr : loadOrGetFnClient env api nodeUrl with ⟨r, api1⟩
  rw [hr] at h1
  cases r with
  | error err => exact h1
  | ok client =>
    simp only [clientNewPendingTransactionFilter]
    cases env.NewPendingTransactionFilter api1.calls client with
    | error err => exact noLogRecord_of_filters_eq api1 _ rfl h1
    | ok fid =>
      exact noLogRecord_addFilter _ pfid _ (by simp [newFilter])
        (noLogRecord_of_filters_eq api1 _ rfl h1)

/-- The record stored by `NewFilter` is of kind pending transaction, so the
table stays free of log records. -/
theorem noLogRecord_NewFilter (env : Env) (now : Int) (api : FilterApi) (nodeUrl : String)
    (crit : Option FilterQuery) (hn : noLogRecord api) :
    noLogRecord (NewFilter env now api nodeUrl crit).2 := by
  have h1 := noLogRecord_loadOrGetFnClient env api nodeUrl hn
  unfold NewFilter
  rcases hr : loadOrGetFnClient env api nodeUrl with ⟨r, api1⟩
  rw [hr] at h1
  cases r with
  | error err => exact h1
  | ok w3c =>
    simp only [sysDelegateNewFilter]
    cases env.delegateNewFilter api1.calls w3c with
    | error err => exact noLogRecord_of_filters_eq api1 _ rfl h1
    | ok pfid =>
      exact noLogRecord_addFilter _ pfid _ (by simp [newFilter])
        (noLogRecord_of_filters_eq api1 _ rfl h1)

/-- Uninstalling keeps the table free of log records. -/
theorem noLogRecord_UninstallFilter (env : Env) (api : FilterApi) (nodeUrl : String) (id : ID)
    (hn : noLogRecord api) : noLogRecord (UninstallFilter env api nodeUrl id).2 :=
  noLogRecord_of_filters_eq (delFilter api id).2 _ (UninstallFilter_filters env api nodeUrl id)
    (noLogRecord_delFilter api id hn)

/-- On a table free of log records `GetFilterLogs` finds nothing. -/
theorem GetFilterLogs_of_noLogRecord (env : Env) (api : FilterApi) (nodeUrl : String) (id : ID)
    (hn : noLogRecord api) :
    GetFilterLogs env api nodeUrl id = (([], some Error.errFilterNotFound), api) := by
  cases hf : getFilter api id with
  | none => simp [GetFilterLogs, hf]
  | some f => simp [GetFilterLogs, hf, hn id f hf]

/-- Polling keeps the table free of log records. -/
theorem noLogRecord_GetFilterChanges (env : Env) (now : Int) (api : FilterApi)
    (nodeUrl : String) (id : ID) (hn : noLogRecord api) :
    noLogRecord (GetFilterChanges env now api nodeUrl id).2 := by
  unfold GetFilterChanges
  cases hf : getFilter api id with
  | none => exact hn
  | some f =>
    have hk := hn id f hf
    simp only [hk, if_false]
    by_cases hA : f.IsDelegateFullNode env nodeUrl = true
    · simp only [hA, Bool.not_true, Bool.false_eq_true, if_false]
      have h1 := noLogRecord_loadOrGetFnClient env (refreshFilterPollingTime now api id) nodeUrl
        (noLogRecord_refresh now api id hn)
      rcases hr : loadOrGetFnClient env (refreshFilterPollingTime now api id) nodeUrl
        with ⟨r, api2⟩
      rw [hr] at h1
      cases r with
      | error err => exact h1
      | ok w3c =>
        simp only
        have h2 : noLogRecord (clientGetFilterChanges env api2 w3c f.del.fid).2 :=
          noLogRecord_of_filters_eq api2 _ rfl h1
        split_ifs
        · exact noLogRecord_delFilter _ id h2
        · exact h2
    · simp only [Bool.not_eq_true] at hA
      simp only [hA, Bool.not_false, if_true]
      exact noLogRecord_delFilter api id hn

/-- The sweeper tick keeps the table free of log records. -/
theorem noLogRecord_timeoutTick (env : Env) (now timeout : Int) (api : FilterApi)
    (hn : noLogRecord api) : noLogRecord (timeoutTick env now timeout api) :=
  noLogRecord_of_filters_eq (expireFilters now timeout api).2 _
    (foldl_uninstall env (expireFilters now timeout api).1.entries
      (expireFilters now timeout api).2).1
    (noLogRecord_expireFilters now timeout api hn)

/-- Every operation keeps the table free of log records. -/
theorem noLogRecord_exec (env : Env) (api : FilterApi) (op : Op) (hn : noLogRecord api) :
    noLogRecord (op.exec env api) := by
  cases op with
  | NewBlockFilter now pfid nodeUrl => exact noLogRecord_NewBlockFilter env now pfid api nodeUrl hn
  | NewPendingTransactionFilter now pfid nodeUrl =>
    exact noLogRecord_NewPendingTransactionFilter env now pfid api nodeUrl hn
  | NewFilter now nodeUrl crit => exact noLogRecord_NewFilter env now api nodeUrl crit hn
  | UninstallFilter nodeUrl id => exact noLogRecord_UninstallFilter env api nodeUrl id hn
  | GetFilterLogs nodeUrl id =>
    show noLogRecord (GetFilterLogs env api nodeUrl id).2
    rw [GetFilterLogs_of_noLogRecord env api nodeUrl id hn]
    exact hn
  | GetFilterChanges now nodeUrl id => exact noLogRecord_GetFilterChanges env now api nodeUrl id hn
  | expireFilters now ttl => exact noLogRecord_expireFilters now ttl api hn
  | timeoutTick now timeout => exact noLogRecord_timeoutTick env now timeout api hn

/-- Every sequence of operations keeps the table free of log records. -/
theorem noLogRecord_runOps (env : Env) (ops : List Op) :
    ∀ api, noLogRecord api → noLogRecord (runOps env api ops) := by
  induction ops with
  | nil => intro api hn; exact hn
  | cons op ops ih =>
    intro api hn
    exact ih (op.exec env api) (noLogRecord_exec env api op hn)

/-- C17: start from a state with the empty table (whatever the client cache
and the calls made so far) and run any sequence of `NewBlockFilter`,
`NewPendingTransactionFilter`, `NewFilter`, `UninstallFilter`, `GetFilterLogs`,
`GetFilterChanges`, `expireFilters` and sweeper ticks, with any arguments and
any collaborators. Then no record of the table is of kind log, and
`GetFilterLogs` returns nil logs with `errFilterNotFound` for every node
address and every handle (those returned by `NewFilter` included) and changes
nothing. -/
theorem runOps_never_stores_log (env : Env) (clients : AList (fun _ : String => Web3goClient))
    (calls : List Call) (ops : List Op) :
    (∀ id f,
        getFilter (runOps env { filters := ∅, clients := clients, calls := calls } ops) id
          = some f → f.typ ≠ FilterType.FilterTypeLog)
    ∧ ∀ nodeUrl id,
        GetFilterLogs env (runOps env { filters := ∅, clients := clients, calls := calls } ops)
            nodeUrl id
          = (([], some Error.errFilterNotFound),
              runOps env { filters := ∅, clients := clients, calls := calls } ops) := by
  have hn : noLogRecord (runOps env { filters := ∅, clients := clients, calls := calls } ops) :=
    noLogRecord_runOps env ops _ (by intro id f hf; cases hf)
  exact ⟨hn, fun nodeUrl id => GetFilterLogs_of_noLogRecord env _ nodeUrl id hn⟩

/-! ## The frame of `UninstallFilter` -/

/-- C18: whatever the collaborators answer, after `UninstallFilter` the handle
is absent from the table and the record under every other handle is the one it
was before the call. -/
theorem UninstallFilter_removes_only_handle (env : Env) (api : FilterApi) (nodeUrl : String)
    (h : ID) :
    getFilter (UninstallFilter env api nodeUrl h).2 h = none
    ∧ ∀ h', h' ≠ h → getFilter (UninstallFilter env api nodeUrl h).2 h' = getFilter api h' := by
  refine ⟨getFilter_UninstallFilter_self env api nodeUrl h, ?_⟩
  intro h' hne
  have := getFilter_delFilter_ne api h h' hne
  unfold getFilter at this ⊢
  rw [UninstallFilter_filters]
  exact this

/-- Witness of C18: on the table holding `"h1"` and `"h3"`, uninstall `"h1"`
through its node while the connection cannot be built. -/
theorem UninstallFilter_removes_only_handle_witness :
    (UninstallFilter downEnv apiWithTwo "A" "h1").1 = (false, some (Error.external "dial failed"))
    ∧ getFilter (UninstallFilter downEnv apiWithTwo "A" "h1").2 "h1" = none
    ∧ "h3" ≠ "h1"
    ∧ getFilter (UninstallFilter downEnv apiWithTwo "A" "h1").2 "h3" = getFilter apiWithTwo "h3"
    ∧ getFilter apiWithTwo "h3" = some pendingOnA :=
  ⟨by decide, (UninstallFilter_removes_only_handle downEnv apiWithTwo "A" "h1").1, by decide,
    (UninstallFilter_removes_only_handle downEnv apiWithTwo "A" "h1").2 "h3" (by decide),
    by decide⟩

end virtualfilter

namespace middlewares

/-! ## The rate limit middlewares -/

/-- The response loop of `RateLimitBatch` builds the list of error responses in
the order of the messages. -/
theorem foldl_errorResponse (hd : Handlers) (msgs : List JsonRpcMessage) :
    ∀ acc : List JsonRpcMessage,
      msgs.foldl (fun responses v => responses ++ [hd.ErrorResponse v errRateLimit]) acc
        = acc ++ msgs.map (fun v => hd.ErrorResponse v errRateLimit) := by
  induction msgs with
  | nil => intro acc; simp
  | cons m ms ih =>
    intro acc
    rw [List.foldl_cons, ih]
    simp

/-- Gate consultations are not invocations of a next handler. -/
theorem invocations_append_gate (tr : List Event) (ctx : Context) :
    invocations (tr ++ [Event.WhiteListAllow ctx]) = invocations tr
    ∧ ∀ key weight, invocations (tr ++ [Event.RateLimitAllow ctx key weight])
        = invocations tr := by
  simp [invocations, List.filter_append]

/-- C14: call the context admitted when the allow-list admits it or both
`RateLimitAllow(ctx, "rpc_all", 1)` and `RateLimitAllow(ctx, msg.Method, 1)`
answer true (each gate being asked after the ones before it). If the context is
admitted, `RateLimit` invokes the next handler exactly once, as its last
action, and returns its response; otherwise it returns the error response of
the message for "too many requests" and does not invoke the next handler. So
the next handler is invoked if and only if the context is admitted. -/
theorem RateLimit_invokes_next_iff_admitted (hd : Handlers) (next : HandleCallMsgFunc)
    (tr : List Event) (ctx : Context) (msg : JsonRpcMessage) :
    ((hd.WhiteListAllow tr ctx = true
        ∨ (hd.RateLimitAllow (tr ++ [Event.WhiteListAllow ctx]) ctx "rpc_all" 1 = true
          ∧ hd.RateLimitAllow
              (tr ++ [Event.WhiteListAllow ctx] ++ [Event.RateLimitAllow ctx "rpc_all" 1])
              ctx msg.Method 1 = true)) →
      invocations (RateLimit hd next tr ctx msg).2 = invocations tr ++ [Event.next ctx msg]
      ∧ ∃ tr', (RateLimit hd next tr ctx msg).1 = next tr' ctx msg
          ∧ (RateLimit hd next tr ctx msg).2 = tr' ++ [Event.next ctx msg])
    ∧ (¬ (hd.WhiteListAllow tr ctx = true
        ∨ (hd.RateLimitAllow (tr ++ [Event.WhiteListAllow ctx]) ctx "rpc_all" 1 = true
          ∧ hd.RateLimitAllow
              (tr ++ [Event.WhiteListAllow ctx] ++ [Event.RateLimitAllow ctx "rpc_all" 1])
              ctx msg.Method 1 = true)) →
      (RateLimit hd next tr ctx msg).1 = hd.ErrorResponse msg errRateLimit
      ∧ errRateLimit = GoError.new "too many requests"
      ∧ invocations (RateLimit hd next tr ctx msg).2 = invocations tr)
    ∧ (invocations (RateLimit hd next tr ctx msg).2 = invocations tr ++ [Event.next ctx msg]
        ↔ (hd.WhiteListAllow tr ctx = true
          ∨ (hd.RateLimitAllow (tr ++ [Event.WhiteListAllow ctx]) ctx "rpc_all" 1 = true
            ∧ hd.RateLimitAllow
                (tr ++ [Event.WhiteListAllow ctx] ++ [Event.RateLimitAllow ctx "rpc_all" 1])
                ctx msg.Method 1 = true))) := by
  have hw := (invocations_append_gate tr ctx).1
  have hg1 := (invocations_append_gate (tr ++ [Event.WhiteListAllow ctx]) ctx).2 "rpc_all" 1
  have hg2 := (invocations_append_gate
    (tr ++ [Event.WhiteListAllow ctx] ++ [Event.RateLimitAllow ctx "rpc_all" 1]) ctx).2
    msg.Method 1
  have hnx : ∀ t : List Event, invocations (t ++ [Event.next ctx msg])
      = invocations t ++ [Event.next ctx msg] := by
    intro t
    simp [invocations, List.filter_append]
  have hne : invocations tr ≠ invocations tr ++ [Event.next ctx msg] := by
    intro h
    have := congrArg List.length h
    simp at this
  by_cases h0 : hd.WhiteListAllow tr ctx = true
  · have hval : RateLimit hd next tr ctx msg
        = (next (tr ++ [Event.WhiteListAllow ctx]) ctx msg,
            tr ++ [Event.WhiteListAllow ctx] ++ [Event.next ctx msg]) := by
      simp [RateLimit, h0]
    rw [hval]
    have hinv : invocations (tr ++ [Event.WhiteListAllow ctx] ++ [Event.next ctx msg])
        = invocations tr ++ [Event.next ctx msg] := by rw [hnx, hw]
    refine ⟨fun _ => ⟨hinv, _, rfl, rfl⟩, fun hn => absurd (Or.inl h0) hn,
      fun _ => Or.inl h0, fun _ => hinv⟩
  · by_cases h1 : hd.RateLimitAllow (tr ++ [Event.WhiteListAllow ctx]) ctx "rpc_all" 1 = true
    · by_cases h2 : hd.RateLimitAllow
          (tr ++ [Event.WhiteListAllow ctx] ++ [Event.RateLimitAllow ctx "rpc_all" 1])
          ctx msg.Method 1 = true
      · have hval : RateLimit hd next tr ctx msg
            = (next (tr ++ [Event.WhiteListAllow ctx] ++ [Event.RateLimitAllow ctx "rpc_all" 1]
                  ++ [Event.RateLimitAllow ctx msg.Method 1]) ctx msg,
                tr ++ [Event.WhiteListAllow ctx] ++ [Event.RateLimitAllow ctx "rpc_all" 1]
                  ++ [Event.RateLimitAllow ctx msg.Method 1] ++ [Event.next ctx msg]) := by
          simp only [RateLimit, Bool.not_eq_true] at *
          simp only [h0, h1, h2, Bool.not_true, Bool.not_false, Bool.false_eq_true, if_false, if_true]
        rw [hval]
        have hinv : invocations
            (tr ++ [Event.WhiteListAllow ctx] ++ [Event.RateLimitAllow ctx "rpc_all" 1]
              ++ [Event.RateLimitAllow ctx msg.Method 1] ++ [Event.next ctx msg])
            = invocations tr ++ [Event.next ctx msg] := by rw [hnx, hg2, hg1, hw]
        refine ⟨fun _ => ⟨hinv, _, rfl, rfl⟩, fun hn => absurd (Or.inr ⟨h1, h2⟩) hn,
          fun _ => Or.inr ⟨h1, h2⟩, fun _ => hinv⟩
      · have hval : RateLimit hd next tr ctx msg
            = (hd.ErrorResponse msg errRateLimit,
                tr ++ [Event.WhiteListAllow ctx] ++ [Event.RateLimitAllow ctx "rpc_all" 1]
                  ++ [Event.RateLimitAllow ctx msg.Method 1]) := by
          simp only [RateLimit, Bool.not_eq_true] at *
          simp only [h0, h1, h2, Bool.not_true, Bool.not_false, Bool.false_eq_true, if_false, if_true]
        rw [hval]
        have hinv : invocations
            (tr ++ [Event.WhiteListAllow ctx] ++ [Event.RateLimitAllow ctx "rpc_all" 1]
              ++ [Event.RateLimitAllow ctx msg.Method 1]) = invocations tr := by
          rw [hg2, hg1, hw]
        have hnot : ¬ (hd.WhiteListAllow tr ctx = true
            ∨ (hd.RateLimitAllow (tr ++ [Event.WhiteListAllow ctx]) ctx "rpc_all" 1 = true
              ∧ hd.RateLimitAllow
                  (tr ++ [Event.WhiteListAllow ctx] ++ [Event.RateLimitAllow ctx "rpc_all" 1])
                  ctx msg.Method 1 = true)) := by
          rintro (h | ⟨_, h⟩)
          · exact h0 h
          · exact h2 h
        refine ⟨fun ha => absurd ha hnot, fun _ => ⟨rfl, rfl, hinv⟩,
          fun h => absurd (hinv.symm.trans h) hne, fun ha => absurd ha hnot⟩
    · have hval : RateLimit hd next tr ctx msg
          = (hd.ErrorResponse msg errRateLimit,
              tr ++ [Event.WhiteListAllow ctx] ++ [Event.RateLimitAllow ctx "rpc_all" 1]) := by
        simp only [RateLimit, Bool.not_eq_true] at *
        simp only [h0, h1, Bool.not_true, Bool.not_false, Bool.false_eq_true, if_false, if_true]
      rw [hval]
      have hinv : invocations
          (tr ++ [Event.WhiteListAllow ctx] ++ [Event.RateLimitAllow ctx "rpc_all" 1])
          = invocations tr := by rw [hg1, hw]
      have hnot : ¬ (hd.WhiteListAllow tr ctx = true
          ∨ (hd.RateLimitAllow (tr ++ [Event.WhiteListAllow ctx]) ctx "rpc_all" 1 = true
            ∧ hd.RateLimitAllow
                (tr ++ [Event.WhiteListAllow ctx] ++ [Event.RateLimitAllow ctx "rpc_all" 1])
                ctx msg.Method 1 = true)) := by
        rintro (h | ⟨h, _⟩)
        · exact h0 h
        · exact h1 h
      refine ⟨fun ha => absurd ha hnot, fun _ => ⟨rfl, rfl, hinv⟩,
        fun h => absurd (hinv.symm.trans h) hne, fun ha => absurd ha hnot⟩

/-- Witness of C14: a message admitted by both gates, a message refused by the
gate of its method, and an allow-listed context. -/
theorem RateLimit_invokes_next_iff_admitted_witness :
    ((strictHandlers.WhiteListAllow [] "c" = true
        ∨ (strictHandlers.RateLimitAllow ([] ++ [Event.WhiteListAllow "c"]) "c" "rpc_all" 1 = true
          ∧ strictHandlers.RateLimitAllow
              ([] ++ [Event.WhiteListAllow "c"] ++ [Event.RateLimitAllow "c" "rpc_all" 1])
              "c" msgBlockNumber.Method 1 = true))
      ∧ invocations (RateLimit strictHandlers sampleNext [] "c" msgBlockNumber).2
          = invocations [] ++ [Event.next "c" msgBlockNumber]
      ∧ ∃ tr', (RateLimit strictHandlers sampleNext [] "c" msgBlockNumber).1
            = sampleNext tr' "c" msgBlockNumber
          ∧ (RateLimit strictHandlers sampleNext [] "c" msgBlockNumber).2
            = tr' ++ [Event.next "c" msgBlockNumber])
    ∧ (¬ (strictHandlers.WhiteListAllow [] "c" = true
        ∨ (strictHandlers.RateLimitAllow ([] ++ [Event.WhiteListAllow "c"]) "c" "rpc_all" 1 = true
          ∧ strictHandlers.RateLimitAllow
              ([] ++ [Event.WhiteListAllow "c"] ++ [Event.RateLimitAllow "c" "rpc_all" 1])
              "c" msgGetLogs.Method 1 = true))
      ∧ (RateLimit strictHandlers sampleNext [] "c" msgGetLogs).1
          = strictHandlers.ErrorResponse msgGetLogs errRateLimit
      ∧ errRateLimit = GoError.new "too many requests"
      ∧ invocations (RateLimit strictHandlers sampleNext [] "c" msgGetLogs).2 = invocations [])
    ∧ (openHandlers.WhiteListAllow [] "c" = true
      ∧ invocations (RateLimit openHandlers sampleNext [] "c" msgGetLogs).2
          = invocations [] ++ [Event.next "c" msgGetLogs]) :=
  ⟨⟨by decide,
      (RateLimit_invokes_next_iff_admitted strictHandlers sampleNext [] "c" msgBlockNumber).1
        (by decide)⟩,
    ⟨by decide,
      (RateLimit_invokes_next_iff_admitted strictHandlers sampleNext [] "c" msgGetLogs).2.1
        (by decide)⟩,
    ⟨by decide,
      ((RateLimit_invokes_next_iff_admitted openHandlers sampleNext [] "c" msgGetLogs).1
        (Or.inl (by decide))).1⟩⟩

/-- C16: when the batch is neither allow-listed nor admitted by
`RateLimitAllow(ctx, "rpc_batch", len(msgs))`, `RateLimitBatch` does not invoke
the next handler and returns one response per message, the response at every
position being the error response of the message at that position for "too
many requests". When the batch is allow-listed, or is not allow-listed but
admitted by the rate gate, it invokes the next handler once, as its last
action, and returns exactly the responses of the next handler. -/
theorem RateLimitBatch_cases (hd : Handlers) (next : HandleBatchFunc) (tr : List Event)
    (ctx : Context) (msgs : List JsonRpcMessage) :
    (hd.WhiteListAllow tr ctx = false →
      hd.RateLimitAllow (tr ++ [Event.WhiteListAllow ctx]) ctx "rpc_batch" msgs.length
          = false →
        (RateLimitBatch hd next tr ctx msgs).1
            = msgs.map (fun v => hd.ErrorResponse v errRateLimit)
        ∧ (RateLimitBatch hd next tr ctx msgs).1.length = msgs.length
        ∧ (∀ i : Nat, (RateLimitBatch hd next tr ctx msgs).1[i]?
            = (msgs[i]?).map (fun v => hd.ErrorResponse v errRateLimit))
        ∧ errRateLimit = GoError.new "too many requests"
        ∧ invocations (RateLimitBatch hd next tr ctx msgs).2 = invocations tr)
    ∧ (hd.WhiteListAllow tr ctx = true →
        RateLimitBatch hd next tr ctx msgs
          = (next (tr ++ [Event.WhiteListAllow ctx]) ctx msgs,
              tr ++ [Event.WhiteListAllow ctx] ++ [Event.nextBatch ctx msgs]))
    ∧ (hd.WhiteListAllow tr ctx = false →
      hd.RateLimitAllow (tr ++ [Event.WhiteListAllow ctx]) ctx "rpc_batch" msgs.length
          = true →
        RateLimitBatch hd next tr ctx msgs
          = (next (tr ++ [Event.WhiteListAllow ctx]
                ++ [Event.RateLimitAllow ctx "rpc_batch" msgs.length]) ctx msgs,
              tr ++ [Event.WhiteListAllow ctx]
                ++ [Event.RateLimitAllow ctx "rpc_batch" msgs.length]
                ++ [Event.nextBatch ctx msgs])) := by
  refine ⟨?_, ?_, ?_⟩
  · intro h0 h1
    have hval : RateLimitBatch hd next tr ctx msgs
        = (msgs.map (fun v => hd.ErrorResponse v errRateLimit),
            tr ++ [Event.WhiteListAllow ctx]
              ++ [Event.RateLimitAllow ctx "rpc_batch" msgs.length]) := by
      simp only [RateLimitBatch, h0, h1, Bool.false_eq_true, if_false]
      rw [foldl_errorResponse hd msgs []]
      rfl
    rw [hval]
    refine ⟨rfl, by simp, ?_, rfl, ?_⟩
    · intro i
      simp [List.getElem?_map]
    · rw [(invocations_append_gate (tr ++ [Event.WhiteListAllow ctx]) ctx).2,
        (invocations_append_gate tr ctx).1]
  · intro h0
    simp only [RateLimitBatch, h0, if_true]
  · intro h0 h1
    simp only [RateLimitBatch, h0, h1, Bool.false_eq_true, if_false, if_true]

/-- Witness of C16: a batch of three messages refused by the rate gate, a batch
of two admitted by it, and an allow-listed batch. -/
theorem RateLimitBatch_cases_witness :
    (strictHandlers.WhiteListAllow [] "c" = false
      ∧ strictHandlers.RateLimitAllow ([] ++ [Event.WhiteListAllow "c"]) "c" "rpc_batch"
          [msgGetLogs, msgBlockNumber, msgGetLogs].length = false
      ∧ (RateLimitBatch strictHandlers sampleNextBatch [] "c"
            [msgGetLogs, msgBlockNumber, msgGetLogs]).1
          = [msgGetLogs, msgBlockNumber, msgGetLogs].map
              (fun v => strictHandlers.ErrorResponse v errRateLimit)
      ∧ (RateLimitBatch strictHandlers sampleNextBatch [] "c"
            [msgGetLogs, msgBlockNumber, msgGetLogs]).1.length
          = [msgGetLogs, msgBlockNumber, msgGetLogs].length
      ∧ (∀ i : Nat, (RateLimitBatch strictHandlers sampleNextBatch [] "c"
            [msgGetLogs, msgBlockNumber, msgGetLogs]).1[i]?
          = ([msgGetLogs, msgBlockNumber, msgGetLogs][i]?).map
              (fun v => strictHandlers.ErrorResponse v errRateLimit))
      ∧ errRateLimit = GoError.new "too many requests"
      ∧ invocations (RateLimitBatch strictHandlers sampleNextBatch [] "c"
            [msgGetLogs, msgBlockNumber, msgGetLogs]).2 = invocations [])
    ∧ (strictHandlers.RateLimitAllow ([] ++ [Event.WhiteListAllow "c"]) "c" "rpc_batch"
          [msgGetLogs, msgBlockNumber].length = true
      ∧ RateLimitBatch strictHandlers sampleNextBatch [] "c" [msgGetLogs, msgBlockNumber]
          = (sampleNextBatch ([] ++ [Event.WhiteListAllow "c"]
                ++ [Event.RateLimitAllow "c" "rpc_batch" [msgGetLogs, msgBlockNumber].length])
                "c" [msgGetLogs, msgBlockNumber],
              [] ++ [Event.WhiteListAllow "c"]
                ++ [Event.RateLimitAllow "c" "rpc_batch" [msgGetLogs, msgBlockNumber].length]
                ++ [Event.nextBatch "c" [msgGetLogs, msgBlockNumber]]))
    ∧ (openHandlers.WhiteListAllow [] "c" = true
      ∧ RateLimitBatch openHandlers sampleNextBatch [] "c" [msgGetLogs]
          = (sampleNextBatch ([] ++ [Event.WhiteListAllow "c"]) "c" [msgGetLogs],
              [] ++ [Event.WhiteListAllow "c"] ++ [Event.nextBatch "c" [msgGetLogs]])) :=
  ⟨⟨by decide, by decide,
      (RateLimitBatch_cases strictHandlers sampleNextBatch [] "c"
        [msgGetLogs, msgBlockNumber, msgGetLogs]).1 (by decide) (by decide)⟩,
    ⟨by decide,
      (RateLimitBatch_cases strictHandlers sampleNextBatch [] "c"
        [msgGetLogs, msgBlockNumber]).2.2 (by decide) (by decide)⟩,
    ⟨by decide,
      (RateLimitBatch_cases openHandlers sampleNextBatch [] "c" [msgGetLogs]).2.1
        (by decide)⟩⟩

end middlewares
